import Mathlib

/-!
Verification development for the storage/schema core of `inx-api-core-v0`
(read-only index over a legacy tangle dataset).

The Go sources are shallowly embedded: bytes are `Nat` values below 256,
byte strings are `List Nat`, machine integers are `Nat`/`Int` with explicit
`% 2^32` where Go performs a conversion, fallible code returns
`Except String` and Go panics are an explicit `panicked` outcome.
Key-value stores are association lists in iteration order.

Types of the repository that are not under the extracted sources
(the transaction payload, the bundle record, and a few small helpers)
are modelled from the specification; each such definition carries a
doc comment starting with `Modelled from the spec:`.
-/

deriving instance DecidableEq for Except

/-! ## Byte-level helpers -/

/-- `hornet.HashSize`: hashes are fixed 49-byte binary values. -/
def HashSize : Nat := 49

/-- `milestone.IndexByteSize`: milestone indices are stored as 4 bytes. -/
def milestoneIndexByteSize : Nat := 4

/-- `TransactionMetadataSize` from the source:
`1 + IndexByteSize + HashSize + HashSize + HashSize + IndexByteSize`. -/
def TransactionMetadataSize : Nat :=
  1 + milestoneIndexByteSize + HashSize + HashSize + HashSize + milestoneIndexByteSize

/-- `binary.LittleEndian.PutUint32` of the `uint32` conversion of `n`:
the four little-endian bytes of `n % 2^32`. -/
def uint32LE (n : Nat) : List Nat :=
  [n % 256, n / 256 % 256, n / 65536 % 256, n / 16777216 % 256]

/-- `binary.LittleEndian.Uint32` on the first four bytes of `l`
(Go requires at least four bytes; callers guard the length). -/
def fromLE4 (l : List Nat) : Nat :=
  l.getD 0 0 + 256 * l.getD 1 0 + 65536 * l.getD 2 0 + 16777216 * l.getD 3 0

/-- Go `copy(dst[off:off+lim], src)`: overwrites `min lim src.length` bytes of
`dst` starting at `off`, leaving the rest of `dst` unchanged. -/
def setBytes (dst : List Nat) (off : Nat) (src : List Nat) (lim : Nat) : List Nat :=
  dst.take off ++ src.take lim ++ dst.drop (off + min lim src.length)

/-- The result of copying a hash into a zeroed 49-byte region:
the hash truncated to 49 bytes, padded with zero bytes. -/
def padHash (l : List Nat) : List Nat :=
  l.take HashSize ++ List.replicate (HashSize - l.length) 0

/-- `bitmask.BitMask.ModifyBit`: set or clear bit `pos` of the byte `b`
(`b | 1<<pos` resp. `b &^ (1<<pos)`; the clear mask is the byte complement). -/
def modifyBit (b : Nat) (pos : Nat) (state : Bool) : Nat :=
  if state then b ||| (1 <<< pos) else b &&& (255 ^^^ (1 <<< pos))

/-- `bitmask.BitMask.HasBit`. -/
def hasBit (b : Nat) (pos : Nat) : Bool :=
  b.testBit pos

/-- Go conversion of a (possibly negative) `int64` value to `uint32`:
the low 32 bits. -/
def toUint32 (i : Int) : Nat :=
  (i.emod 4294967296).toNat

/-- A model byte string is valid when every entry is an actual byte value. -/
def ValidBytes (l : List Nat) : Prop :=
  ∀ x ∈ l, x < 256

instance (l : List Nat) : Decidable (ValidBytes l) := by
  unfold ValidBytes; infer_instance

/-! ## Data model

Bit positions of the metadata bitmask, from the source. -/

def TransactionMetadataSolid : Nat := 0
def TransactionMetadataConfirmed : Nat := 1
def TransactionMetadataConflicting : Nat := 2
def TransactionMetadataIsHead : Nat := 3
def TransactionMetadataIsTail : Nat := 4
def TransactionMetadataIsValue : Nat := 5
def TransactionMetadataIsMilestone : Nat := 6

/-- Modelled from the spec: the transaction payload collaborator type (§6).
`transactionFactory` (parsing the stored payload bytes) is not under the
extracted sources, so transaction stores map hashes directly to parsed
payloads, which carry trunk/branch/bundle hashes, the head/tail/value
predicates, the obsolete-tag field interpreted as an integer
(`trinary.TrytesToInt(tx.ObsoleteTag)`), and the timestamp. -/
structure Tx where
  trunkHash : List Nat
  branchHash : List Nat
  bundleHash : List Nat
  isHead : Bool
  isTail : Bool
  isValue : Bool
  obsoleteTag : Int
  timestamp : Nat
deriving DecidableEq, Repr

/-- Modelled from the spec: the Bundle record (`bundleFactory`'s output type
is not under the extracted sources). A bundle instance is keyed by its tail
transaction hash, remembers the bundle hash and tail hash, and carries the
milestone marker (`Bundle.IsMilestone()`), treated as an opaque stored flag. -/
structure Bundle where
  hash : List Nat
  tailTx : List Nat
  isMilestoneFlag : Bool
deriving DecidableEq, Repr

/-- `Bundle.IsMilestone()`. -/
def Bundle.IsMilestone (b : Bundle) : Bool :=
  b.isMilestoneFlag

/-- `TransactionMetadata` (current, version-3 shape) from the source. -/
structure TransactionMetadata where
  txHash : List Nat
  metadata : Nat
  confirmationIndex : Nat
  trunkHash : List Nat
  branchHash : List Nat
  bundleHash : List Nat
  milestoneIndex : Nat
deriving DecidableEq, Repr

/-- `NewTransactionMetadata`. -/
def NewTransactionMetadata (txHash : List Nat) : TransactionMetadata :=
  { txHash := txHash, metadata := 0, confirmationIndex := 0,
    trunkHash := [], branchHash := [], bundleHash := [], milestoneIndex := 0 }

/-- `TransactionMetadata.Marshal`: a zeroed `TransactionMetadataSize` buffer,
then the bitmask byte, the little-endian confirmation index, the three
hashes (Go `copy` semantics) and the little-endian milestone index are
written at their fixed offsets. -/
def TransactionMetadata.Marshal (m : TransactionMetadata) : List Nat :=
  let hashSize := HashSize
  let msIndexSize := milestoneIndexByteSize
  let value := List.replicate TransactionMetadataSize 0
  let value := setBytes value 0 [m.metadata % 256] 1
  let value := setBytes value 1 (uint32LE m.confirmationIndex) msIndexSize
  let value := setBytes value (1 + msIndexSize + 0 * hashSize) m.trunkHash hashSize
  let value := setBytes value (1 + msIndexSize + 1 * hashSize) m.branchHash hashSize
  let value := setBytes value (1 + msIndexSize + 2 * hashSize) m.bundleHash hashSize
  let value := setBytes value (1 + msIndexSize + 3 * hashSize) (uint32LE m.milestoneIndex) msIndexSize
  value

/-- `TransactionMetadata.Unmarshal` (version-3 fixed layout), for a record of
at least `TransactionMetadataSize` bytes. -/
def unmarshalTransactionMetadata (txHash data : List Nat) : TransactionMetadata :=
  { txHash := txHash,
    metadata := data.getD 0 0 % 256,
    confirmationIndex := fromLE4 (data.drop 1),
    trunkHash := (data.drop 5).take HashSize,
    branchHash := (data.drop 54).take HashSize,
    bundleHash := (data.drop 103).take HashSize,
    milestoneIndex := fromLE4 (data.drop 152) }

/-! ## Store model

Association lists in iteration order stand for the ordered KV realms; the
engine's failure channel (any `Get` error other than `ErrKeyNotFound`) is
modelled by a set of failing keys. -/

/-- Outcome of a KV `Get`: a value, `ErrKeyNotFound`, or another engine error. -/
inductive GetResult (α : Type) where
  | found (value : α)
  | notFound
  | ioErr (msg : String)
deriving DecidableEq, Repr

/-- First-match association-list lookup (KV point read). -/
def findEntry {α : Type} (k : List Nat) : List (List Nat × α) → Option α
  | [] => none
  | (k', v) :: rest => if k = k' then some v else findEntry k rest

/-- A realm with its entries and the keys on which the engine fails. -/
def storeGet {α : Type} (entries : List (List Nat × α)) (errKeys : List (List Nat))
    (k : List Nat) : GetResult α :=
  if k ∈ errKeys then .ioErr "engine failure"
  else
    match findEntry k entries with
    | some v => .found v
    | none => .notFound

/-- Outcome of an operation that can `panic`. -/
inductive PanicResult (α : Type) where
  | ok (value : α)
  | panicked (msg : String)
deriving DecidableEq, Repr

/-- The `Database` object's realms, as visible to the query façade:
transaction payloads (already parsed, see `Tx`), transaction metadata
records, milestone records, and the bundle-transactions key set. -/
structure DbModel where
  txEntries : List (List Nat × Tx)
  txErrKeys : List (List Nat)
  metadataEntries : List (List Nat × List Nat)
  metadataErrKeys : List (List Nat)
  milestoneEntries : List (List Nat × List Nat)
  milestoneErrKeys : List (List Nat)
  bundleTxKeys : List (List Nat)
deriving Repr

def DbModel.txGet (db : DbModel) (k : List Nat) : GetResult Tx :=
  storeGet db.txEntries db.txErrKeys k

def DbModel.metadataGet (db : DbModel) (k : List Nat) : GetResult (List Nat) :=
  storeGet db.metadataEntries db.metadataErrKeys k

def DbModel.milestoneGet (db : DbModel) (k : List Nat) : GetResult (List Nat) :=
  storeGet db.milestoneEntries db.milestoneErrKeys k

/-! ## Query façade -/

/-- Modelled from the spec: `TransactionOrNil` (§4.3) is not under the
extracted sources; it loads and parses the payload, returns nothing when the
key is absent, and treats any other engine failure as fatal. -/
def TransactionOrNil (db : DbModel) (txHash : List Nat) : PanicResult (Option Tx) :=
  match db.txGet txHash with
  | .found tx => .ok (some tx)
  | .notFound => .ok none
  | .ioErr e => .panicked e

/-- Modelled from the spec: `metadataFactory` is not under the extracted
sources; it parses the fixed 156-byte layout via `Unmarshal`, failing on a
record shorter than the layout (a malformed record is fatal, §7b). -/
def metadataFactory (key data : List Nat) : Except String TransactionMetadata :=
  if data.length < TransactionMetadataSize then .error "invalid metadata length"
  else .ok (unmarshalTransactionMetadata key data)

/-- `Database.TxMetadataOrNil` (current version): `ErrKeyNotFound` is a
normal `nil` return, every other `Get` failure panics, and a factory error
panics. -/
def TxMetadataOrNil (db : DbModel) (txHash : List Nat) : PanicResult (Option TransactionMetadata) :=
  match db.metadataGet txHash with
  | .notFound => .ok none
  | .ioErr e => .panicked e
  | .found data =>
    match metadataFactory txHash data with
    | .ok txMeta => .ok (some txMeta)
    | .error e => .panicked e

/-- `databaseKeyForMilestoneIndex`: the 4 little-endian index bytes. -/
def databaseKeyForMilestoneIndex (milestoneIndex : Nat) : List Nat :=
  uint32LE milestoneIndex

/-- `milestoneIndexFromDatabaseKey`. -/
def milestoneIndexFromDatabaseKey (key : List Nat) : Nat :=
  fromLE4 key

/-- `Milestone`: a milestone index together with its tail transaction hash. -/
structure Milestone where
  index : Nat
  hash : List Nat
deriving DecidableEq, Repr

/-- `milestoneFactory`: index from the key, hash from the first
`HashSize` value bytes (Go panics when the value is shorter). -/
def milestoneFactory (key data : List Nat) : PanicResult Milestone :=
  if data.length < HashSize then .panicked "invalid milestone value length"
  else .ok { index := milestoneIndexFromDatabaseKey key, hash := data.take HashSize }

/-- `Database.MilestoneOrNil`: `ErrKeyNotFound` is a normal `nil` return,
every other `Get` failure panics. -/
def MilestoneOrNil (db : DbModel) (milestoneIndex : Nat) : PanicResult (Option Milestone) :=
  let key := databaseKeyForMilestoneIndex milestoneIndex
  match db.milestoneGet key with
  | .notFound => .ok none
  | .ioErr e => .panicked e
  | .found data =>
    match milestoneFactory key data with
    | .ok ms => .ok (some ms)
    | .panicked e => .panicked e

/-- `Database.MilestoneTimestamp`: resolves the milestone's tail transaction
and returns its timestamp; a missing milestone or tail transaction is an
error return. -/
def MilestoneTimestamp (db : DbModel) (milestoneIndex : Nat) : PanicResult (Except String Nat) :=
  match MilestoneOrNil db milestoneIndex with
  | .panicked e => .panicked e
  | .ok none => .ok (.error "milestone not found")
  | .ok (some ms) =>
    match TransactionOrNil db ms.hash with
    | .panicked e => .panicked e
    | .ok none => .ok (.error "milestone tail transaction not found")
    | .ok (some tx) => .ok (.ok tx.timestamp)

/-! ## Bundle-transactions realm -/

/-- `BundleTxIsTail`. -/
def BundleTxIsTail : Nat := 1

/-- `databaseKeyPrefixForBundleHash`: the bundle hash itself. -/
def databaseKeyPrefixForBundleHash (bundleHash : List Nat) : List Nat :=
  bundleHash

/-- Modelled from the spec: `databaseKeyForBundle` is not under the extracted
sources; bundle records are keyed by the tail transaction hash that
identifies the bundle instance (§3). -/
def databaseKeyForBundle (tailTxHash : List Nat) : List Nat :=
  tailTxHash

/-- `KVStore.IterateKeys` over the keys matching a prefix, in store order:
folds the callback over the keys, stopping as soon as it returns `false`.
Besides the final callback state it returns the trace of keys the callback
was invoked on, so that theorems can speak about what the scan visited. -/
def iterateKeysGo {σ : Type} (f : σ → List Nat → σ × Bool) (s : σ) :
    List (List Nat) → σ × List (List Nat)
  | [] => (s, [])
  | k :: ks =>
    let fr := f s k
    if fr.2 then
      let rest := iterateKeysGo f fr.1 ks
      (rest.1, k :: rest.2)
    else (fr.1, [k])

/-- `IterateKeys keys pre f s`: restrict the store's keys to those beginning
with `pre`, then fold `f` with early stop. -/
def IterateKeys {σ : Type} (keys : List (List Nat)) (pre : List Nat)
    (f : σ → List Nat → σ × Bool) (s : σ) : σ × List (List Nat) :=
  iterateKeysGo f s (keys.filter (fun k => pre.isPrefixOf k))

/-- The callback of `Database.BundleTransactionHashes`: count the key, stop
without collecting once the count exceeds the cap, otherwise collect
`key[50:99]` (the member transaction hash). -/
def bundleTxHashesStep (maxFind : Option Nat) (st : Nat × List (List Nat))
    (key : List Nat) : (Nat × List (List Nat)) × Bool :=
  let i := st.1 + 1
  match maxFind with
  | some mf =>
    if i > mf then ((i, st.2), false)
    else ((i, st.2 ++ [(key.drop 50).take 49]), true)
  | none => ((i, st.2 ++ [(key.drop 50).take 49]), true)

/-- `Database.BundleTransactionHashes`: prefix scan of the
bundle-transactions realm under the bundle hash. -/
def BundleTransactionHashes (bundleTxKeys : List (List Nat)) (bundleHash : List Nat)
    (maxFind : Option Nat) : List (List Nat) :=
  (IterateKeys bundleTxKeys (databaseKeyPrefixForBundleHash bundleHash)
    (bundleTxHashesStep maxFind) (0, [])).1.2

/-- The keys `Database.BundleTransactionHashes` invokes its callback on. -/
def bundleTxHashesVisited (bundleTxKeys : List (List Nat)) (bundleHash : List Nat)
    (maxFind : Option Nat) : List (List Nat) :=
  (IterateKeys bundleTxKeys (databaseKeyPrefixForBundleHash bundleHash)
    (bundleTxHashesStep maxFind) (0, [])).2

/-! ## Migration engine (schema v2 → v3) -/

/-- `supportedDatabaseVersionUpgradeFunc`: the only supported transition is
version 2 → version 3. -/
def supportedDatabaseVersionUpgradeFunc (oldVersion newVersion : Nat) : Except String Unit :=
  if ¬(oldVersion = 2 ∧ newVersion = 3) then
    .error "unsupported database version migration"
  else .ok ()

/-- `getBundleMilestoneIndex` from `migrateTangleDatabaseFunc`: an empty tail
hash or a dangling tail reference is an error; otherwise the milestone index
is the tail transaction's obsolete tag read as an integer, converted to
`uint32` (payload parsing is external, see `Tx`). -/
def getBundleMilestoneIndex (txs : List (List Nat × Tx)) (bundle : Bundle) :
    Except String Nat :=
  if bundle.tailTx.length = 0 then .error "tail hash can never be empty"
  else
    match findEntry bundle.tailTx txs with
    | none => .error "bundle has a reference to a non persisted transaction"
    | some tailTx => .ok (toUint32 tailTx.obsoleteTag)

/-- The body of the migration's tail scan over the already-filtered keys
under `bundleHash ‖ BundleTxIsTail`: a missing bundle record means keep
searching; the first bundle whose `IsMilestone()` holds resolves the index
and stops the scan; if no tail yields a milestone the index is 0. -/
def resolveScan (txs : List (List Nat × Tx)) (bundles : List (List Nat × Bundle)) :
    List (List Nat) → Except String Nat
  | [] => .ok 0
  | key :: rest =>
    let bundleKey := databaseKeyForBundle ((key.drop 50).take 49)
    match findEntry bundleKey bundles with
    | none => resolveScan txs bundles rest
    | some bundle =>
      if bundle.IsMilestone then
        match getBundleMilestoneIndex txs bundle with
        | .error e => .error e
        | .ok msIndex => .ok msIndex
      else resolveScan txs bundles rest

/-- The migration's cache-miss resolution for one bundle hash: iterate all
tail-transaction keys under the bundle hash. -/
def resolveBundleMilestoneIndex (txs : List (List Nat × Tx))
    (bundles : List (List Nat × Bundle)) (bundleTxKeys : List (List Nat))
    (bundleHash : List Nat) : Except String Nat :=
  resolveScan txs bundles
    (bundleTxKeys.filter (fun k =>
      (databaseKeyPrefixForBundleHash bundleHash ++ [BundleTxIsTail]).isPrefixOf k))

/-- The record composed by the migration for one metadata entry: the legacy
bitmask with the IsHead/IsTail/IsValue bits set from the payload and the
IsMilestone bit set iff the resolved index is nonzero, the legacy
confirmation index (read at offset `1 + IndexByteSize` of the old record),
the payload's trunk/branch/bundle hashes, and the resolved milestone index. -/
def composeMigratedMetadata (txHash data : List Nat) (tx : Tx)
    (milestoneIndex : Nat) : TransactionMetadata :=
  { txHash := txHash,
    metadata :=
      modifyBit (modifyBit (modifyBit (modifyBit (data.getD 0 0 % 256)
        TransactionMetadataIsHead tx.isHead)
        TransactionMetadataIsTail tx.isTail)
        TransactionMetadataIsValue tx.isValue)
        TransactionMetadataIsMilestone (milestoneIndex ≠ 0),
    confirmationIndex := fromLE4 (data.drop (1 + milestoneIndexByteSize)),
    trunkHash := tx.trunkHash,
    branchHash := tx.branchHash,
    bundleHash := tx.bundleHash,
    milestoneIndex := milestoneIndex }

/-- The four-bit update performed by the migration on the metadata byte. -/
def setMigrationBits (b : Nat) (isHead isTail isValue isMs : Bool) : Nat :=
  modifyBit (modifyBit (modifyBit (modifyBit b
    TransactionMetadataIsHead isHead)
    TransactionMetadataIsTail isTail)
    TransactionMetadataIsValue isValue)
    TransactionMetadataIsMilestone isMs

/-- The byte-level effect of re-migrating an already-migrated record: the
four confirmation-index bytes at offset 1 are replaced by the four bytes at
offset 5 (the start of the trunk hash); everything else is unchanged. -/
def rewriteConfIndex (v : List Nat) : List Nat :=
  v.take 1 ++ (v.drop 5).take 4 ++ v.drop 5

/-- One iteration of `migrateTangleDatabaseFunc` for a metadata record
`(key, data)`: read the legacy bitmask and confirmation index, load the
transaction payload, resolve the bundle's milestone index through the cache,
compose the new record and marshal it. Returns the written bytes and the
updated cache. -/
def migrateStep (txs : List (List Nat × Tx)) (bundles : List (List Nat × Bundle))
    (bundleTxKeys : List (List Nat)) (cache : List (List Nat × Nat))
    (key data : List Nat) : Except String (List Nat × List (List Nat × Nat)) :=
  if data.length < 9 then .error "malformed metadata record"
  else
    let txHash := key.take HashSize
    match findEntry txHash txs with
    | none => .error "transaction not found"
    | some tx =>
      let milestoneCacheKey := tx.bundleHash
      let resolved : Except String (Nat × List (List Nat × Nat)) :=
        match findEntry milestoneCacheKey cache with
        | some cached => .ok (cached, cache)
        | none =>
          match resolveBundleMilestoneIndex txs bundles bundleTxKeys tx.bundleHash with
          | .error e => .error e
          | .ok msIndex => .ok (msIndex, (milestoneCacheKey, msIndex) :: cache)
      match resolved with
      | .error e => .error e
      | .ok (milestoneIndex, cache') =>
        let txMeta := composeMigratedMetadata txHash data tx milestoneIndex
        .ok (txMeta.Marshal, cache')

/-- The migration pass over all transaction metadata records, threading the
bundle-milestone cache (the source's LRU has a 10,000,000-entry capacity;
resolution is a pure function of the immutable stores, so eviction only
re-runs the same resolution and is not modelled). Each processed record is
written back at its own key. -/
def migrateAll (txs : List (List Nat × Tx)) (bundles : List (List Nat × Bundle))
    (bundleTxKeys : List (List Nat)) (cache : List (List Nat × Nat)) :
    List (List Nat × List Nat) → Except String (List (List Nat × List Nat))
  | [] => .ok []
  | (key, data) :: rest =>
    match migrateStep txs bundles bundleTxKeys cache key data with
    | .error e => .error e
    | .ok (written, cache') =>
      match migrateAll txs bundles bundleTxKeys cache' rest with
      | .error e => .error e
      | .ok out => .ok ((key, written) :: out)

/-- `migrateTangleDatabaseFunc`: the version guard, then the pass over all
metadata records with an initially empty cache. -/
def migrateTangleDatabaseFunc (oldVersion newVersion : Nat)
    (txs : List (List Nat × Tx)) (bundles : List (List Nat × Bundle))
    (bundleTxKeys : List (List Nat)) (metas : List (List Nat × List Nat)) :
    Except String (List (List Nat × List Nat)) :=
  match supportedDatabaseVersionUpgradeFunc oldVersion newVersion with
  | .error e => .error e
  | .ok _ => migrateAll txs bundles bundleTxKeys [] metas

/-- The cache-free specification of one migrated record: identical to
`migrateStep` except that the bundle's milestone index is always resolved
directly from the immutable stores. -/
def migratedRecord (txs : List (List Nat × Tx)) (bundles : List (List Nat × Bundle))
    (bundleTxKeys : List (List Nat)) (key data : List Nat) : Except String (List Nat) :=
  if data.length < 9 then .error "malformed metadata record"
  else
    let txHash := key.take HashSize
    match findEntry txHash txs with
    | none => .error "transaction not found"
    | some tx =>
      match resolveBundleMilestoneIndex txs bundles bundleTxKeys tx.bundleHash with
      | .error e => .error e
      | .ok milestoneIndex =>
        let txMeta := composeMigratedMetadata txHash data tx milestoneIndex
        .ok txMeta.Marshal

/-- The cache-free specification of the whole pass. -/
def migrateSpec (txs : List (List Nat × Tx)) (bundles : List (List Nat × Bundle))
    (bundleTxKeys : List (List Nat)) :
    List (List Nat × List Nat) → Except String (List (List Nat × List Nat))
  | [] => .ok []
  | (key, data) :: rest =>
    match migratedRecord txs bundles bundleTxKeys key data with
    | .error e => .error e
    | .ok written =>
      match migrateSpec txs bundles bundleTxKeys rest with
      | .error e => .error e
      | .ok out => .ok ((key, written) :: out)

/-! ## Legacy (pre-v3) metadata accessor -/

namespace Legacy

/-- `TransactionMetadata` in its legacy (pre-v3) shape: no milestone index. -/
structure TransactionMetadata where
  txHash : List Nat
  metadata : Nat
  confirmationIndex : Nat
  trunkHash : List Nat
  branchHash : List Nat
  bundleHash : List Nat
deriving DecidableEq, Repr

/-- Legacy `TransactionMetadata.Unmarshal`: bitmask byte, confirmation index
at the legacy offset 5, and the three hashes only when the record has the
full legacy length `21 + 49 + 49 + 49`. -/
def unmarshalMetadata (txHash data : List Nat) : Except String TransactionMetadata :=
  if data.length < 9 then .error "malformed metadata record"
  else
    .ok
      { txHash := txHash,
        metadata := data.getD 0 0 % 256,
        confirmationIndex := fromLE4 (data.drop 5),
        trunkHash :=
          if 17 < data.length ∧ data.length = 21 + 49 + 49 + 49 then
            (data.drop 21).take 49
          else [],
        branchHash :=
          if 17 < data.length ∧ data.length = 21 + 49 + 49 + 49 then
            (data.drop (21 + 49)).take 49
          else [],
        bundleHash :=
          if 17 < data.length ∧ data.length = 21 + 49 + 49 + 49 then
            (data.drop (21 + 49 + 49)).take 49
          else [] }

/-- Legacy `TransactionMetadata.SetAdditionalTxInfo`. -/
def TransactionMetadata.SetAdditionalTxInfo (m : TransactionMetadata)
    (trunkHash branchHash bundleHash : List Nat)
    (isHead isTail isValue : Bool) : TransactionMetadata :=
  { m with
    trunkHash := trunkHash,
    branchHash := branchHash,
    bundleHash := bundleHash,
    metadata :=
      modifyBit (modifyBit (modifyBit m.metadata
        TransactionMetadataIsHead isHead)
        TransactionMetadataIsTail isTail)
        TransactionMetadataIsValue isValue }

/-- Legacy `Database.addAdditionalTxInfoToMetadata`: the local `branchHash`
is assigned from `metadata.TrunkHash()` exactly as in the source; when
either local is empty the transaction payload is loaded (a missing payload
panics) and the hashes and head/tail/value bits are backfilled. -/
def addAdditionalTxInfoToMetadata (db : DbModel) (metadata : TransactionMetadata) :
    PanicResult TransactionMetadata :=
  let trunkHash := metadata.trunkHash
  let branchHash := metadata.trunkHash
  if trunkHash.length = 0 ∨ branchHash.length = 0 then
    match TransactionOrNil db metadata.txHash with
    | .panicked e => .panicked e
    | .ok none => .panicked "transaction not found for metadata"
    | .ok (some tx) =>
      .ok (metadata.SetAdditionalTxInfo tx.trunkHash tx.branchHash tx.bundleHash
        tx.isHead tx.isTail tx.isValue)
  else .ok metadata

/-- Legacy `Database.TxMetadataOrNil`: as the current one, but parsing the
legacy layout and backfilling payload-derived fields before returning. -/
def TxMetadataOrNil (db : DbModel) (txHash : List Nat) :
    PanicResult (Option TransactionMetadata) :=
  match db.metadataGet txHash with
  | .notFound => .ok none
  | .ioErr e => .panicked e
  | .found data =>
    match unmarshalMetadata txHash data with
    | .error e => .panicked e
    | .ok txMeta =>
      match addAdditionalTxInfoToMetadata db txMeta with
      | .panicked e => .panicked e
      | .ok txMeta' => .ok (some txMeta')

end Legacy

/-- `GetResult.isEngineErr`: whether a `Get` failed with an error other than
`ErrKeyNotFound`. -/
def GetResult.isEngineErr {α : Type} : GetResult α → Bool
  | .ioErr _ => true
  | _ => false

/-! ## Concrete example data

A small concrete dataset: one bundle hash `cB` with one tail transaction
`cTail` whose bundle record is a milestone; the tail transaction's
obsolete tag decodes to 7 and its timestamp is 1000; one ordinary
transaction `cTxHash` belonging to the bundle, with a legacy v2 metadata
record whose confirmation index is 5. -/

def cB : List Nat := List.replicate 49 2
def cTail : List Nat := List.replicate 49 3
def cTxHash : List Nat := List.replicate 49 4
def cTrunk : List Nat := List.replicate 49 9
def cBranch : List Nat := List.replicate 49 6

def cTailTx : Tx :=
  { trunkHash := List.replicate 49 7, branchHash := List.replicate 49 8,
    bundleHash := cB, isHead := false, isTail := true, isValue := false,
    obsoleteTag := 7, timestamp := 1000 }

def cTx : Tx :=
  { trunkHash := cTrunk, branchHash := cBranch, bundleHash := cB,
    isHead := false, isTail := true, isValue := false,
    obsoleteTag := 0, timestamp := 500 }

def cTxs : List (List Nat × Tx) := [(cTxHash, cTx), (cTail, cTailTx)]

def cBundle : Bundle := { hash := cB, tailTx := cTail, isMilestoneFlag := true }

def cBundles : List (List Nat × Bundle) := [(cTail, cBundle)]

def cKeyM : List Nat := cB ++ [BundleTxIsTail] ++ cTail

def cKeys : List (List Nat) := [cKeyM]

/-- A legacy v2 metadata record: bitmask 3, solidification timestamp 11,
confirmation index 5, three root-snapshot indices 0, three empty hashes. -/
def cMetaData : List Nat :=
  [3] ++ uint32LE 11 ++ uint32LE 5 ++ uint32LE 0 ++ uint32LE 0 ++ uint32LE 0 ++
    List.replicate 147 0

def cMetas : List (List Nat × List Nat) := [(cTxHash, cMetaData)]

/-- The first migration pass over the concrete dataset. -/
def cOut : List (List Nat × List Nat) :=
  match migrateAll cTxs cBundles cKeys [] cMetas with
  | .ok o => o
  | .error _ => []

/-- A hypothetical second migration pass over the already-migrated records. -/
def cOut2 : List (List Nat × List Nat) :=
  match migrateAll cTxs cBundles cKeys [] cOut with
  | .ok o => o
  | .error _ => []

/-- A concrete metadata value for the layout claim. -/
def c5m : TransactionMetadata :=
  { txHash := cTxHash, metadata := 83, confirmationIndex := 5,
    trunkHash := cTrunk, branchHash := cBranch, bundleHash := cB,
    milestoneIndex := 7 }

/-- Concrete bundle-transactions realm with three keys under one bundle
hash, for the scan-cap claim. -/
def cB4 : List Nat := List.replicate 49 5
def cK1 : List Nat := cB4 ++ [0] ++ List.replicate 49 1
def cK2 : List Nat := cB4 ++ [1] ++ List.replicate 49 2
def cK3 : List Nat := cB4 ++ [1] ++ List.replicate 49 3
def cKeys4 : List (List Nat) := [cK1, cK2, cK3]

/-- Concrete database for the point-lookup error-handling claim: one
metadata key and one milestone key on which the engine fails. -/
def db6 : DbModel :=
  { txEntries := [], txErrKeys := [],
    metadataEntries := [], metadataErrKeys := [[1]],
    milestoneEntries := [], milestoneErrKeys := [databaseKeyForMilestoneIndex 2],
    bundleTxKeys := [] }

def tx8 : Tx :=
  { trunkHash := List.replicate 49 1, branchHash := List.replicate 49 1,
    bundleHash := List.replicate 49 1, isHead := false, isTail := true,
    isValue := false, obsoleteTag := 4, timestamp := 777 }

/-- Concrete database for the milestone-timestamp claim: milestone 4 maps
to tail hash `cTail`, whose transaction has timestamp 777. -/
def db8 : DbModel :=
  { txEntries := [(cTail, tx8)], txErrKeys := [],
    metadataEntries := [], metadataErrKeys := [],
    milestoneEntries := [(databaseKeyForMilestoneIndex 4, cTail)], milestoneErrKeys := [],
    bundleTxKeys := [] }

def tx10 : Tx :=
  { trunkHash := List.replicate 49 11, branchHash := List.replicate 49 12,
    bundleHash := List.replicate 49 13, isHead := true, isTail := false,
    isValue := true, obsoleteTag := 0, timestamp := 50 }

/-- Concrete database for the legacy backfill claim: the payload exists for
`m10c.txHash` but not for `m10b.txHash`. -/
def db10 : DbModel :=
  { txEntries := [(List.replicate 49 8, tx10)], txErrKeys := [],
    metadataEntries := [], metadataErrKeys := [],
    milestoneEntries := [], milestoneErrKeys := [],
    bundleTxKeys := [] }

/-- Legacy metadata with a stored trunk hash but an empty stored branch
hash: the accessor must still skip the backfill. -/
def m10a : Legacy.TransactionMetadata :=
  { txHash := List.replicate 49 9, metadata := 2, confirmationIndex := 3,
    trunkHash := List.replicate 49 1, branchHash := [], bundleHash := [] }

/-- Legacy metadata with an empty trunk hash whose payload is missing. -/
def m10b : Legacy.TransactionMetadata :=
  { txHash := List.replicate 49 7, metadata := 2, confirmationIndex := 3,
    trunkHash := [], branchHash := List.replicate 49 1, bundleHash := [] }

/-- Legacy metadata with an empty trunk hash whose payload exists. -/
def m10c : Legacy.TransactionMetadata :=
  { txHash := List.replicate 49 8, metadata := 2, confirmationIndex := 3,
    trunkHash := [], branchHash := List.replicate 49 1, bundleHash := [] }

/-! ## Byte-level lemmas -/

theorem uint32LE_length (n : Nat) : (uint32LE n).length = 4 := rfl

theorem padHash_length (l : List Nat) : (padHash l).length = HashSize := by
  simp only [padHash, List.length_append, List.length_take, List.length_replicate]
  omega

theorem fromLE4_uint32LE (n : Nat) : fromLE4 (uint32LE n) = n % 4294967296 := by
  simp only [fromLE4, uint32LE, List.getD_cons_zero, List.getD_cons_succ]
  omega

theorem fromLE4_lt (l : List Nat) (h : ∀ i, i < 4 → l.getD i 0 < 256) :
    fromLE4 l < 4294967296 := by
  have h0 := h 0 (by omega)
  have h1 := h 1 (by omega)
  have h2 := h 2 (by omega)
  have h3 := h 3 (by omega)
  simp only [fromLE4]
  omega

theorem uint32LE_fromLE4 (l : List Nat) (h : ∀ i, i < 4 → l.getD i 0 < 256) :
    uint32LE (fromLE4 l) = [l.getD 0 0, l.getD 1 0, l.getD 2 0, l.getD 3 0] := by
  have h0 := h 0 (by omega)
  have h1 := h 1 (by omega)
  have h2 := h 2 (by omega)
  have h3 := h 3 (by omega)
  simp only [uint32LE, fromLE4, List.cons.injEq, and_true]
  refine ⟨?_, ?_, ?_, ?_⟩ <;> omega

theorem fromLE4_append (l₁ l₂ : List Nat) (h : 4 ≤ l₁.length) :
    fromLE4 (l₁ ++ l₂) = fromLE4 l₁ := by
  simp only [fromLE4]
  rw [List.getD_append _ _ _ _ (by omega), List.getD_append _ _ _ _ (by omega),
    List.getD_append _ _ _ _ (by omega), List.getD_append _ _ _ _ (by omega)]

theorem take_four_eq (l : List Nat) (h : 4 ≤ l.length) :
    l.take 4 = [l.getD 0 0, l.getD 1 0, l.getD 2 0, l.getD 3 0] := by
  match l with
  | a :: b :: c :: d :: rest => simp
  | [] => simp at h
  | [a] => simp at h
  | [a, b] => simp at h
  | [a, b, c] => simp at h

theorem getD_lt_of_validBytes (l : List Nat) (h : ValidBytes l) (i : Nat) :
    l.getD i 0 < 256 := by
  by_cases hi : i < l.length
  · rw [List.getD_eq_getElem?_getD, List.getElem?_eq_getElem hi]
    exact h _ (List.getElem_mem hi)
  · rw [List.getD_eq_default _ _ (by omega)]
    omega

theorem validBytes_drop (l : List Nat) (h : ValidBytes l) (n : Nat) :
    ValidBytes (l.drop n) :=
  fun x hx => h x (List.mem_of_mem_drop hx)

/-! ## Bitmask lemmas -/

theorem modifyBit_lt (b pos : Nat) (s : Bool) (hb : b < 256) (hp : pos < 8) :
    modifyBit b pos s < 256 := by
  unfold modifyBit
  rcases s with _ | _
  · simp only [Bool.false_eq_true, if_false]
    calc b &&& (255 ^^^ (1 <<< pos)) ≤ b := Nat.and_le_left
      _ < 256 := hb
  · simp only [if_true]
    have h2 : (1 <<< pos) < 256 := by
      rw [Nat.shiftLeft_eq, Nat.one_mul]
      calc (2 : Nat) ^ pos < 2 ^ 8 := Nat.pow_lt_pow_right (by omega) hp
        _ = 256 := by norm_num
    exact Nat.or_lt_two_pow (n := 8) hb h2

theorem testBit_modifyBit (b pos : Nat) (s : Bool) (i : Nat)
    (hp : pos < 8) (hi : i < 8) :
    (modifyBit b pos s).testBit i = if i = pos then s else b.testBit i := by
  unfold modifyBit
  have hshift : (1 : Nat) <<< pos = 2 ^ pos := by
    rw [Nat.shiftLeft_eq, Nat.one_mul]
  have h255 : (255 : Nat) = 2 ^ 8 - 1 := by norm_num
  rcases s with _ | _
  · simp only [Bool.false_eq_true, if_false, Nat.testBit_and, hshift, h255,
      Nat.testBit_xor, Nat.testBit_two_pow_sub_one, Nat.testBit_two_pow]
    by_cases hip : i = pos
    · subst hip
      simp [hi]
    · simp [hi, Ne.symm hip, hip]
  · simp only [if_true, Nat.testBit_or, hshift, Nat.testBit_two_pow]
    by_cases hip : i = pos
    · subst hip
      simp
    · simp [Ne.symm hip, hip]

theorem byte_eq_of_testBit (a b : Nat) (ha : a < 256) (hb : b < 256)
    (h : ∀ i, i < 8 → a.testBit i = b.testBit i) : a = b := by
  apply Nat.eq_of_testBit_eq
  intro i
  by_cases hi : i < 8
  · exact h i hi
  · have hpow : (256 : Nat) ≤ 2 ^ i := by
      calc (256 : Nat) = 2 ^ 8 := by norm_num
        _ ≤ 2 ^ i := Nat.pow_le_pow_right (by omega) (by omega)
    rw [Nat.testBit_lt_two_pow (by omega), Nat.testBit_lt_two_pow (by omega)]

theorem setMigrationBits_lt (b : Nat) (h t v ms : Bool) (hb : b < 256) :
    setMigrationBits b h t v ms < 256 := by
  unfold setMigrationBits TransactionMetadataIsHead TransactionMetadataIsTail
    TransactionMetadataIsValue TransactionMetadataIsMilestone
  exact modifyBit_lt _ _ _ (modifyBit_lt _ _ _ (modifyBit_lt _ _ _
    (modifyBit_lt _ _ _ hb (by omega)) (by omega)) (by omega)) (by omega)

theorem testBit_setMigrationBits (b : Nat) (h t v ms : Bool) (i : Nat) (hi : i < 8) :
    (setMigrationBits b h t v ms).testBit i =
      if i = 6 then ms else if i = 5 then v else if i = 4 then t
      else if i = 3 then h else b.testBit i := by
  unfold setMigrationBits TransactionMetadataIsHead TransactionMetadataIsTail
    TransactionMetadataIsValue TransactionMetadataIsMilestone
  rw [testBit_modifyBit _ _ _ _ (by omega) hi, testBit_modifyBit _ _ _ _ (by omega) hi,
    testBit_modifyBit _ _ _ _ (by omega) hi, testBit_modifyBit _ _ _ _ (by omega) hi]

theorem setMigrationBits_idem (b : Nat) (h t v ms : Bool) (hb : b < 256) :
    setMigrationBits (setMigrationBits b h t v ms) h t v ms =
      setMigrationBits b h t v ms := by
  apply byte_eq_of_testBit _ _
    (setMigrationBits_lt _ _ _ _ _ (setMigrationBits_lt _ _ _ _ _ hb))
    (setMigrationBits_lt _ _ _ _ _ hb)
  intro i hi
  rw [testBit_setMigrationBits _ _ _ _ _ _ hi, testBit_setMigrationBits _ _ _ _ _ _ hi]
  split_ifs <;> rfl

/-! ## Marshal layout lemmas -/

theorem marshal_eq (m : TransactionMetadata)
    (h1 : m.trunkHash.length = HashSize) (h2 : m.branchHash.length = HashSize)
    (h3 : m.bundleHash.length = HashSize) :
    m.Marshal =
      (m.metadata % 256) :: (uint32LE m.confirmationIndex ++ m.trunkHash ++
        m.branchHash ++ m.bundleHash ++ uint32LE m.milestoneIndex) := by
  unfold HashSize at h1 h2 h3
  have ht : m.trunkHash.take 49 = m.trunkHash := List.take_of_length_le (by omega)
  have hb : m.branchHash.take 49 = m.branchHash := List.take_of_length_le (by omega)
  have hu : m.bundleHash.take 49 = m.bundleHash := List.take_of_length_le (by omega)
  have ht98 : m.trunkHash.take 98 = m.trunkHash := List.take_of_length_le (by omega)
  have ht147 : m.trunkHash.take 147 = m.trunkHash := List.take_of_length_le (by omega)
  have hb98 : m.branchHash.take 98 = m.branchHash := List.take_of_length_le (by omega)
  have hd1 : m.trunkHash.drop 151 = [] := List.drop_eq_nil_of_le (by omega)
  have hd2 : m.branchHash.drop 102 = [] := List.drop_eq_nil_of_le (by omega)
  have hd3 : m.bundleHash.drop 53 = [] := List.drop_eq_nil_of_le (by omega)
  simp only [TransactionMetadata.Marshal, TransactionMetadataSize, HashSize,
    milestoneIndexByteSize]
  norm_num
  simp [setBytes, uint32LE, h1, h2, h3, ht, hb, hu, ht98, ht147, hb98, hd1, hd2, hd3,
    List.take_append_eq_append_take, List.drop_append_eq_append_drop,
    List.append_assoc]

theorem marshal_fields (m : TransactionMetadata)
    (h1 : m.trunkHash.length = HashSize) (h2 : m.branchHash.length = HashSize)
    (h3 : m.bundleHash.length = HashSize) :
    m.Marshal.length = 156 ∧
    m.Marshal.getD 0 0 = m.metadata % 256 ∧
    fromLE4 (m.Marshal.drop 1) = m.confirmationIndex % 4294967296 ∧
    (m.Marshal.drop 5).take 49 = m.trunkHash ∧
    (m.Marshal.drop 54).take 49 = m.branchHash ∧
    (m.Marshal.drop 103).take 49 = m.bundleHash ∧
    m.Marshal.drop 152 = uint32LE m.milestoneIndex ∧
    fromLE4 (m.Marshal.drop 152) = m.milestoneIndex % 4294967296 := by
  rw [marshal_eq m h1 h2 h3]
  unfold HashSize at h1 h2 h3
  have hbr49 : m.branchHash.take 49 = m.branchHash := List.take_of_length_le (by omega)
  have hbu49 : m.bundleHash.take 49 = m.bundleHash := List.take_of_length_le (by omega)
  have hdt : m.trunkHash.drop 49 = [] := List.drop_eq_nil_of_le (by omega)
  have hdb : m.branchHash.drop 49 = [] := List.drop_eq_nil_of_le (by omega)
  have hdu : m.bundleHash.drop 49 = [] := List.drop_eq_nil_of_le (by omega)
  have hdt2 : m.trunkHash.drop 147 = [] := List.drop_eq_nil_of_le (by omega)
  have hdt3 : m.trunkHash.drop 98 = [] := List.drop_eq_nil_of_le (by omega)
  have hdb2 : m.branchHash.drop 98 = [] := List.drop_eq_nil_of_le (by omega)
  have hdu2 : m.bundleHash.drop 53 = [] := List.drop_eq_nil_of_le (by omega)
  refine ⟨?_, ?_, ?_, ?_, ?_, ?_, ?_, ?_⟩
  · simp [uint32LE, h1, h2, h3]
  · rfl
  · rw [show ((m.metadata % 256) :: (uint32LE m.confirmationIndex ++ m.trunkHash ++
      m.branchHash ++ m.bundleHash ++ uint32LE m.milestoneIndex)).drop 1 =
      uint32LE m.confirmationIndex ++ (m.trunkHash ++ m.branchHash ++ m.bundleHash ++
        uint32LE m.milestoneIndex) by simp [List.append_assoc]]
    rw [fromLE4_append _ _ (by simp [uint32LE]), fromLE4_uint32LE]
  · simp [uint32LE, List.drop_append_eq_append_drop, List.take_append_eq_append_take,
      h1, h2, h3, hbr49, hbu49, hdt, hdb, hdu, hdt2, hdt3, hdb2, hdu2]
  · simp [uint32LE, List.drop_append_eq_append_drop, List.take_append_eq_append_take,
      h1, h2, h3, hbr49, hbu49, hdt, hdb, hdu, hdt2, hdt3, hdb2, hdu2]
  · simp [uint32LE, List.drop_append_eq_append_drop, List.take_append_eq_append_take,
      h1, h2, h3, hbr49, hbu49, hdt, hdb, hdu, hdt2, hdt3, hdb2, hdu2]
  · simp [uint32LE, List.drop_append_eq_append_drop, h1, h2, h3, hdt2, hdb2]
  · rw [show ((m.metadata % 256) :: (uint32LE m.confirmationIndex ++ m.trunkHash ++
      m.branchHash ++ m.bundleHash ++ uint32LE m.milestoneIndex)).drop 152 =
      uint32LE m.milestoneIndex by
        simp [uint32LE, List.drop_append_eq_append_drop, h1, h2, h3, hdt2, hdb2]]
    rw [fromLE4_uint32LE]

/-! ## Migration lemmas -/

theorem toUint32_lt (i : Int) : toUint32 i < 4294967296 := by
  unfold toUint32
  have h1 : i.emod 4294967296 < 4294967296 := Int.emod_lt_of_pos i (by norm_num)
  have h2 : 0 ≤ i.emod 4294967296 := Int.emod_nonneg i (by norm_num)
  omega

theorem resolveScan_lt (txs : List (List Nat × Tx)) (bundles : List (List Nat × Bundle)) :
    ∀ (l : List (List Nat)) (v : Nat), resolveScan txs bundles l = .ok v → v < 4294967296 := by
  intro l
  induction l with
  | nil =>
    intro v hv
    simp only [resolveScan] at hv
    cases hv
    omega
  | cons key rest ih =>
    intro v hv
    simp only [resolveScan] at hv
    cases hfe : findEntry (databaseKeyForBundle ((key.drop 50).take 49)) bundles with
    | none =>
      rw [hfe] at hv
      exact ih v hv
    | some bundle =>
      rw [hfe] at hv
      by_cases hms : bundle.IsMilestone
      · simp only [hms, if_true] at hv
        cases hgb : getBundleMilestoneIndex txs bundle with
        | error e => rw [hgb] at hv; cases hv
        | ok msIndex =>
          rw [hgb] at hv
          cases hv
          unfold getBundleMilestoneIndex at hgb
          by_cases htail : bundle.tailTx.length = 0
          · simp [htail] at hgb
          · simp only [htail, if_false] at hgb
            cases hfe2 : findEntry bundle.tailTx txs with
            | none => rw [hfe2] at hgb; cases hgb
            | some tailTx =>
              rw [hfe2] at hgb
              cases hgb
              exact toUint32_lt _
      · simp only [hms, if_false] at hv
        exact ih v hv

theorem resolveBundleMilestoneIndex_lt (txs : List (List Nat × Tx))
    (bundles : List (List Nat × Bundle)) (bundleTxKeys : List (List Nat))
    (bundleHash : List Nat) (v : Nat)
    (h : resolveBundleMilestoneIndex txs bundles bundleTxKeys bundleHash = .ok v) :
    v < 4294967296 :=
  resolveScan_lt txs bundles _ v h

/-- Well-formedness of the transaction store: every payload's back-reference
hashes are genuine 49-byte strings. -/
def TxStoreWF (txs : List (List Nat × Tx)) : Prop :=
  ∀ p ∈ txs, p.2.trunkHash.length = HashSize ∧ p.2.branchHash.length = HashSize ∧
    p.2.bundleHash.length = HashSize ∧ ValidBytes p.2.trunkHash ∧
    ValidBytes p.2.branchHash ∧ ValidBytes p.2.bundleHash

instance (txs : List (List Nat × Tx)) : Decidable (TxStoreWF txs) := by
  unfold TxStoreWF
  infer_instance

theorem findEntry_mem {α : Type} (k : List Nat) (v : α) :
    ∀ l : List (List Nat × α), findEntry k l = some v → (k, v) ∈ l := by
  intro l
  induction l with
  | nil => intro h; simp [findEntry] at h
  | cons p rest ih =>
    intro h
    cases p with
    | mk k' v' =>
      simp only [findEntry] at h
      by_cases hk : k = k'
      · subst hk
        simp only [eq_self_iff_true, if_true, Option.some.injEq] at h
        subst h
        exact List.mem_cons_self _ _
      · simp only [if_neg hk] at h
        exact List.mem_cons_of_mem _ (ih h)

/-- Every cached bundle index agrees with the direct resolution from the
immutable stores. -/
def CacheCorrect (txs : List (List Nat × Tx)) (bundles : List (List Nat × Bundle))
    (bundleTxKeys : List (List Nat)) (cache : List (List Nat × Nat)) : Prop :=
  ∀ k v, findEntry k cache = some v →
    resolveBundleMilestoneIndex txs bundles bundleTxKeys k = .ok v

theorem cacheCorrect_nil (txs : List (List Nat × Tx)) (bundles : List (List Nat × Bundle))
    (bundleTxKeys : List (List Nat)) : CacheCorrect txs bundles bundleTxKeys [] := by
  intro k v h
  simp [findEntry] at h

theorem migrateStep_eq (txs : List (List Nat × Tx)) (bundles : List (List Nat × Bundle))
    (bundleTxKeys : List (List Nat)) (cache : List (List Nat × Nat)) (key data : List Nat)
    (hc : CacheCorrect txs bundles bundleTxKeys cache) :
    ∃ cache', CacheCorrect txs bundles bundleTxKeys cache' ∧
      migrateStep txs bundles bundleTxKeys cache key data =
        (migratedRecord txs bundles bundleTxKeys key data).map (fun r => (r, cache')) := by
  unfold migrateStep migratedRecord
  by_cases hlen : data.length < 9
  · exact ⟨cache, hc, by simp [hlen, Except.map]⟩
  · simp only [hlen, if_false]
    cases hfe : findEntry (key.take HashSize) txs with
    | none => exact ⟨cache, hc, by simp [Except.map]⟩
    | some tx =>
      cases hcache : findEntry tx.bundleHash cache with
      | some cached =>
        have hres := hc _ _ hcache
        exact ⟨cache, hc, by simp [hcache, hres, Except.map]⟩
      | none =>
        cases hres : resolveBundleMilestoneIndex txs bundles bundleTxKeys tx.bundleHash with
        | error e => exact ⟨cache, hc, by simp [hcache, hres, Except.map]⟩
        | ok msIndex =>
          refine ⟨(tx.bundleHash, msIndex) :: cache, ?_,
            by simp [hcache, hres, Except.map]⟩
          intro k v h
          simp only [findEntry] at h
          by_cases hk : k = tx.bundleHash
          · simp only [if_pos hk, Option.some.injEq] at h
            subst h
            rw [hk]
            exact hres
          · simp only [if_neg hk] at h
            exact hc _ _ h

theorem migrateAll_eq (txs : List (List Nat × Tx)) (bundles : List (List Nat × Bundle))
    (bundleTxKeys : List (List Nat)) :
    ∀ (metas : List (List Nat × List Nat)) (cache : List (List Nat × Nat)),
      CacheCorrect txs bundles bundleTxKeys cache →
      migrateAll txs bundles bundleTxKeys cache metas =
        migrateSpec txs bundles bundleTxKeys metas := by
  intro metas
  induction metas with
  | nil => intro cache _; rfl
  | cons p rest ih =>
    intro cache hc
    obtain ⟨cache', hc', heq⟩ := migrateStep_eq txs bundles bundleTxKeys cache p.1 p.2 hc
    rw [show p = (p.1, p.2) from rfl]
    simp only [migrateAll, migrateSpec]
    rw [heq]
    cases hrec : migratedRecord txs bundles bundleTxKeys p.1 p.2 with
    | error e => simp [Except.map]
    | ok r =>
      simp only [Except.map]
      rw [ih cache' hc']

theorem marshal_take1 (m : TransactionMetadata)
    (h1 : m.trunkHash.length = HashSize) (h2 : m.branchHash.length = HashSize)
    (h3 : m.bundleHash.length = HashSize) :
    m.Marshal.take 1 = [m.metadata % 256] := by
  rw [marshal_eq m h1 h2 h3]
  rfl

theorem marshal_drop5 (m : TransactionMetadata)
    (h1 : m.trunkHash.length = HashSize) (h2 : m.branchHash.length = HashSize)
    (h3 : m.bundleHash.length = HashSize) :
    m.Marshal.drop 5 = m.trunkHash ++ m.branchHash ++ m.bundleHash ++
      uint32LE m.milestoneIndex := by
  rw [marshal_eq m h1 h2 h3]
  simp [uint32LE, List.append_assoc]

/-- A successfully migrated record decomposes as the marshalled composition
of the legacy record and the loaded payload. -/
theorem migratedRecord_ok (txs : List (List Nat × Tx)) (bundles : List (List Nat × Bundle))
    (bundleTxKeys : List (List Nat)) (key data r : List Nat)
    (h : migratedRecord txs bundles bundleTxKeys key data = .ok r) :
    ¬ data.length < 9 ∧
    ∃ tx idx, findEntry (key.take HashSize) txs = some tx ∧
      resolveBundleMilestoneIndex txs bundles bundleTxKeys tx.bundleHash = .ok idx ∧
      r = (composeMigratedMetadata (key.take HashSize) data tx idx).Marshal := by
  unfold migratedRecord at h
  by_cases hlen : data.length < 9
  · simp [hlen] at h
  · simp only [hlen, if_false] at h
    cases hfe : findEntry (key.take HashSize) txs with
    | none => rw [hfe] at h; simp at h
    | some tx =>
      rw [hfe] at h
      dsimp only at h
      cases hres : resolveBundleMilestoneIndex txs bundles bundleTxKeys tx.bundleHash with
      | error e => rw [hres] at h; simp at h
      | ok idx =>
        rw [hres] at h
        dsimp only at h
        cases h
        exact ⟨hlen, tx, idx, rfl, hres, rfl⟩

/-- Conversely, the scan of one record succeeds whenever the guard passes,
the payload exists and the resolution succeeds. -/
theorem migratedRecord_ok_of (txs : List (List Nat × Tx)) (bundles : List (List Nat × Bundle))
    (bundleTxKeys : List (List Nat)) (key data : List Nat) (tx : Tx) (idx : Nat)
    (hlen : ¬ data.length < 9)
    (hfe : findEntry (key.take HashSize) txs = some tx)
    (hres : resolveBundleMilestoneIndex txs bundles bundleTxKeys tx.bundleHash = .ok idx) :
    migratedRecord txs bundles bundleTxKeys key data =
      .ok (composeMigratedMetadata (key.take HashSize) data tx idx).Marshal := by
  unfold migratedRecord
  simp only [hlen, if_false]
  rw [hfe]
  dsimp only
  rw [hres]

theorem migrateSpec_index (txs : List (List Nat × Tx)) (bundles : List (List Nat × Bundle))
    (bundleTxKeys : List (List Nat)) :
    ∀ (metas out : List (List Nat × List Nat)),
      migrateSpec txs bundles bundleTxKeys metas = .ok out →
      out.length = metas.length ∧
      ∀ j, j < metas.length →
        (out.getD j ([], [])).1 = (metas.getD j ([], [])).1 ∧
        migratedRecord txs bundles bundleTxKeys (metas.getD j ([], [])).1
          (metas.getD j ([], [])).2 = .ok (out.getD j ([], [])).2 := by
  intro metas
  induction metas with
  | nil =>
    intro out h
    simp only [migrateSpec] at h
    cases h
    exact ⟨rfl, fun j hj => by simp at hj⟩
  | cons p rest ih =>
    intro out h
    cases p with
    | mk key data =>
      simp only [migrateSpec] at h
      cases hrec : migratedRecord txs bundles bundleTxKeys key data with
      | error e => rw [hrec] at h; cases h
      | ok r =>
        rw [hrec] at h
        dsimp only at h
        cases hrest : migrateSpec txs bundles bundleTxKeys rest with
        | error e => rw [hrest] at h; cases h
        | ok out' =>
          rw [hrest] at h
          dsimp only at h
          cases h
          obtain ⟨hlen, hidx⟩ := ih out' hrest
          refine ⟨by simp [hlen], ?_⟩
          intro j hj
          cases j with
          | zero => exact ⟨rfl, hrec⟩
          | succ j' =>
            simp only [List.getD_cons_succ]
            exact hidx j' (by simpa using hj)

theorem setMigrationBits_def (b : Nat) (h t v ms : Bool) :
    modifyBit (modifyBit (modifyBit (modifyBit b
      TransactionMetadataIsHead h)
      TransactionMetadataIsTail t)
      TransactionMetadataIsValue v)
      TransactionMetadataIsMilestone ms = setMigrationBits b h t v ms := rfl

set_option maxHeartbeats 1000000 in
theorem migratedRecord_again (txs : List (List Nat × Tx)) (bundles : List (List Nat × Bundle))
    (bundleTxKeys : List (List Nat)) (key data r : List Nat)
    (htxs : TxStoreWF txs)
    (h : migratedRecord txs bundles bundleTxKeys key data = .ok r) :
    migratedRecord txs bundles bundleTxKeys key r = .ok (rewriteConfIndex r) := by
  obtain ⟨hlen, tx, idx, hfe, hres, hr⟩ := migratedRecord_ok _ _ _ _ _ _ h
  obtain ⟨ht0, hb0, hu0, hvt0, hvb0, hvu0⟩ := htxs _ (findEntry_mem _ _ _ hfe)
  have ht : tx.trunkHash.length = 49 := ht0
  have hbr : tx.branchHash.length = 49 := hb0
  have hbu : tx.bundleHash.length = 49 := hu0
  have hvt : ValidBytes tx.trunkHash := hvt0
  subst hr
  have pmeta : (composeMigratedMetadata (key.take HashSize) data tx idx).metadata =
      setMigrationBits (data.getD 0 0 % 256) tx.isHead tx.isTail tx.isValue
        (decide (idx ≠ 0)) := rfl
  have ptr : (composeMigratedMetadata (key.take HashSize) data tx idx).trunkHash =
      tx.trunkHash := rfl
  have pbr : (composeMigratedMetadata (key.take HashSize) data tx idx).branchHash =
      tx.branchHash := rfl
  have pbu : (composeMigratedMetadata (key.take HashSize) data tx idx).bundleHash =
      tx.bundleHash := rfl
  have pms : (composeMigratedMetadata (key.take HashSize) data tx idx).milestoneIndex =
      idx := rfl
  have hm1 : (composeMigratedMetadata (key.take HashSize) data tx idx).trunkHash.length =
      HashSize := ht
  have hm2 : (composeMigratedMetadata (key.take HashSize) data tx idx).branchHash.length =
      HashSize := hbr
  have hm3 : (composeMigratedMetadata (key.take HashSize) data tx idx).bundleHash.length =
      HashSize := hbu
  have hflds := marshal_fields _ hm1 hm2 hm3
  rw [pmeta, ptr, pbr, pbu, pms] at hflds
  have hdrop5 := marshal_drop5 _ hm1 hm2 hm3
  rw [ptr, pbr, pbu, pms] at hdrop5
  have hbase : data.getD 0 0 % 256 < 256 := Nat.mod_lt _ (by omega)
  have hBlt : setMigrationBits (data.getD 0 0 % 256) tx.isHead tx.isTail tx.isValue
      (decide (idx ≠ 0)) < 256 := setMigrationBits_lt _ _ _ _ _ hbase
  have hidem := setMigrationBits_idem (data.getD 0 0 % 256) tx.isHead tx.isTail tx.isValue
    (decide (idx ≠ 0)) hbase
  have h9 : ¬ (composeMigratedMetadata (key.take HashSize) data tx idx).Marshal.length < 9 := by
    have := hflds.1
    omega
  rw [migratedRecord_ok_of txs bundles bundleTxKeys key
    (composeMigratedMetadata (key.take HashSize) data tx idx).Marshal tx idx h9 hfe hres]
  congr 1
  have hMget : (composeMigratedMetadata (key.take HashSize) data tx idx).Marshal.getD 0 0 % 256 =
      setMigrationBits (data.getD 0 0 % 256) tx.isHead tx.isTail tx.isValue
        (decide (idx ≠ 0)) := by
    rw [hflds.2.1, Nat.mod_mod_of_dvd _ dvd_rfl, Nat.mod_eq_of_lt hBlt]
  have hfrom : fromLE4 ((composeMigratedMetadata (key.take HashSize) data tx idx).Marshal.drop 5) =
      fromLE4 tx.trunkHash := by
    rw [hdrop5, List.append_assoc, List.append_assoc]
    exact fromLE4_append _ _ (by omega)
  have hcompose : composeMigratedMetadata (key.take HashSize)
      (composeMigratedMetadata (key.take HashSize) data tx idx).Marshal tx idx =
      { txHash := key.take HashSize,
        metadata := setMigrationBits (data.getD 0 0 % 256) tx.isHead tx.isTail tx.isValue
          (decide (idx ≠ 0)),
        confirmationIndex := fromLE4 tx.trunkHash,
        trunkHash := tx.trunkHash,
        branchHash := tx.branchHash,
        bundleHash := tx.bundleHash,
        milestoneIndex := idx } := by
    show ({ txHash := key.take HashSize,
            metadata := modifyBit (modifyBit (modifyBit (modifyBit
              ((composeMigratedMetadata (key.take HashSize) data tx idx).Marshal.getD 0 0 % 256)
              TransactionMetadataIsHead tx.isHead)
              TransactionMetadataIsTail tx.isTail)
              TransactionMetadataIsValue tx.isValue)
              TransactionMetadataIsMilestone (decide (idx ≠ 0)),
            confirmationIndex := fromLE4
              ((composeMigratedMetadata (key.take HashSize) data tx idx).Marshal.drop
                (1 + milestoneIndexByteSize)),
            trunkHash := tx.trunkHash,
            branchHash := tx.branchHash,
            bundleHash := tx.bundleHash,
            milestoneIndex := idx } : TransactionMetadata) = _
    rw [setMigrationBits_def, hMget, hidem,
      show (1 + milestoneIndexByteSize : Nat) = 5 from rfl, hfrom]
  rw [hcompose, marshal_eq _ ht hbr hbu]
  unfold rewriteConfIndex
  have htake1 : (composeMigratedMetadata (key.take HashSize) data tx idx).Marshal.take 1 =
      [setMigrationBits (data.getD 0 0 % 256) tx.isHead tx.isTail tx.isValue
        (decide (idx ≠ 0)) % 256] := by
    have hx := marshal_take1 _ hm1 hm2 hm3
    rw [pmeta] at hx
    exact hx
  have htake4 : ((composeMigratedMetadata (key.take HashSize) data tx idx).Marshal.drop 5).take 4 =
      tx.trunkHash.take 4 := by
    rw [hdrop5, List.append_assoc, List.append_assoc, List.take_append_eq_append_take]
    simp [ht]
  have hle : uint32LE (fromLE4 tx.trunkHash) = tx.trunkHash.take 4 := by
    rw [uint32LE_fromLE4 _ (fun i _ => getD_lt_of_validBytes _ hvt i),
      take_four_eq _ (by omega)]
  rw [htake1, htake4, hdrop5]
  dsimp only
  rw [hle, Nat.mod_eq_of_lt hBlt]
  simp [List.append_assoc]

theorem migrateSpec_again (txs : List (List Nat × Tx)) (bundles : List (List Nat × Bundle))
    (bundleTxKeys : List (List Nat)) (htxs : TxStoreWF txs) :
    ∀ (metas out : List (List Nat × List Nat)),
      migrateSpec txs bundles bundleTxKeys metas = .ok out →
      migrateSpec txs bundles bundleTxKeys out =
        .ok (out.map fun p => (p.1, rewriteConfIndex p.2)) := by
  intro metas
  induction metas with
  | nil =>
    intro out h
    simp only [migrateSpec] at h
    cases h
    rfl
  | cons p rest ih =>
    intro out h
    cases p with
    | mk key data =>
      simp only [migrateSpec] at h
      cases hrec : migratedRecord txs bundles bundleTxKeys key data with
      | error e => rw [hrec] at h; cases h
      | ok r =>
        rw [hrec] at h
        dsimp only at h
        cases hrest : migrateSpec txs bundles bundleTxKeys rest with
        | error e => rw [hrest] at h; cases h
        | ok out' =>
          rw [hrest] at h
          dsimp only at h
          cases h
          have h2 := migratedRecord_again txs bundles bundleTxKeys key data r htxs hrec
          simp only [migrateSpec, List.map_cons]
          rw [h2]
          dsimp only
          rw [ih out' hrest]

/-! ## Prefix-scan lemmas -/

theorem bundleTxScan_go (mf : Nat) :
    ∀ (l : List (List Nat)) (c : Nat) (acc : List (List Nat)), c ≤ mf →
      iterateKeysGo (bundleTxHashesStep (some mf)) (c, acc) l =
        ((c + min l.length (mf + 1 - c),
          acc ++ (l.take (mf - c)).map (fun key => (key.drop 50).take 49)),
         l.take (mf + 1 - c)) := by
  intro l
  induction l with
  | nil =>
    intro c acc hc
    simp [iterateKeysGo]
  | cons a as ih =>
    intro c acc hc
    simp only [iterateKeysGo, bundleTxHashesStep]
    by_cases hstop : c + 1 > mf
    · have hceq : c = mf := by omega
      subst hceq
      rw [if_pos hstop]
      simp only [if_false, Bool.false_eq_true]
      have h1 : c + 1 - c = 1 := by omega
      have h2 : c - c = 0 := by omega
      have h3 : min (as.length + 1) 1 = 1 := by omega
      simp [h1, h2, h3]
    · have hle : c + 1 ≤ mf := by omega
      rw [if_neg hstop]
      simp only [if_true]
      rw [ih (c + 1) (acc ++ [(a.drop 50).take 49]) (by omega)]
      have h1 : mf - c = (mf - (c + 1)) + 1 := by omega
      have h2 : mf + 1 - c = (mf + 1 - (c + 1)) + 1 := by omega
      rw [h1, h2, List.take_succ_cons, List.take_succ_cons]
      simp only [List.map_cons, List.length_cons, List.append_assoc,
        List.singleton_append]
      refine congrArg (fun n => ((n, _), _)) ?_
      omega

/-! ## Claim theorems -/

/-- C7: `supportedDatabaseVersionUpgradeFunc(oldVersion, newVersion)`
succeeds iff `oldVersion = 2` and `newVersion = 3`; every other pair,
including a stored version above the expected one, yields the
unsupported-migration error, so no other schema transition can run. -/
theorem c7_supported_upgrade (oldVersion newVersion : Nat) :
    (supportedDatabaseVersionUpgradeFunc oldVersion newVersion = .ok () ↔
      (oldVersion = 2 ∧ newVersion = 3)) ∧
    (¬(oldVersion = 2 ∧ newVersion = 3) →
      ∃ e, supportedDatabaseVersionUpgradeFunc oldVersion newVersion = .error e) := by
  unfold supportedDatabaseVersionUpgradeFunc
  by_cases h : oldVersion = 2 ∧ newVersion = 3
  · simp [h]
  · simp [h]

/-- C7 witness: the downgrade pair (3, 2) is rejected. -/
theorem c7_witness :
    ¬((3 : Nat) = 2 ∧ (2 : Nat) = 3) ∧
    ((supportedDatabaseVersionUpgradeFunc 3 2 = .ok () ↔ ((3 : Nat) = 2 ∧ (2 : Nat) = 3)) ∧
      (¬((3 : Nat) = 2 ∧ (2 : Nat) = 3) →
        ∃ e, supportedDatabaseVersionUpgradeFunc 3 2 = .error e)) :=
  ⟨by decide, c7_supported_upgrade 3 2⟩

/-- C5: for every `TransactionMetadata` with 49-byte hashes and a byte-valued
bitmask, `Marshal` produces exactly 156 bytes: the bitmask byte at offset 0,
the 4-byte little-endian confirmation index at offset 1, the trunk hash at
offset 5, the branch hash at offset 54, the bundle hash at offset 103 and
the 4-byte little-endian milestone index at offset 152. -/
theorem c5_marshal_layout (m : TransactionMetadata)
    (h1 : m.trunkHash.length = 49) (h2 : m.branchHash.length = 49)
    (h3 : m.bundleHash.length = 49) (h4 : m.metadata < 256) :
    m.Marshal.length = 156 ∧
    m.Marshal.take 1 = [m.metadata] ∧
    (m.Marshal.drop 1).take 4 = uint32LE m.confirmationIndex ∧
    (m.Marshal.drop 5).take 49 = m.trunkHash ∧
    (m.Marshal.drop 54).take 49 = m.branchHash ∧
    (m.Marshal.drop 103).take 49 = m.bundleHash ∧
    m.Marshal.drop 152 = uint32LE m.milestoneIndex ∧
    fromLE4 ((m.Marshal.drop 1).take 4) = m.confirmationIndex % 4294967296 ∧
    fromLE4 (m.Marshal.drop 152) = m.milestoneIndex % 4294967296 := by
  have hflds := marshal_fields m h1 h2 h3
  have htake1 := marshal_take1 m h1 h2 h3
  have hdrop1 : (m.Marshal.drop 1).take 4 = uint32LE m.confirmationIndex := by
    rw [marshal_eq m h1 h2 h3]
    simp only [List.drop_succ_cons, List.drop_zero]
    rw [List.append_assoc, List.append_assoc, List.append_assoc,
      List.take_append_eq_append_take]
    simp [uint32LE]
  refine ⟨hflds.1, ?_, hdrop1, hflds.2.2.2.1, hflds.2.2.2.2.1, hflds.2.2.2.2.2.1,
    hflds.2.2.2.2.2.2.1, ?_, hflds.2.2.2.2.2.2.2⟩
  · rw [htake1, Nat.mod_eq_of_lt h4]
  · rw [hdrop1, fromLE4_uint32LE]

/-- C5 witness: the layout at one concrete metadata value. -/
theorem c5_witness :
    (c5m.trunkHash.length = 49 ∧ c5m.branchHash.length = 49 ∧
      c5m.bundleHash.length = 49 ∧ c5m.metadata < 256) ∧
    (c5m.Marshal.length = 156 ∧
      c5m.Marshal.take 1 = [c5m.metadata] ∧
      (c5m.Marshal.drop 1).take 4 = uint32LE c5m.confirmationIndex ∧
      (c5m.Marshal.drop 5).take 49 = c5m.trunkHash ∧
      (c5m.Marshal.drop 54).take 49 = c5m.branchHash ∧
      (c5m.Marshal.drop 103).take 49 = c5m.bundleHash ∧
      c5m.Marshal.drop 152 = uint32LE c5m.milestoneIndex ∧
      fromLE4 ((c5m.Marshal.drop 1).take 4) = c5m.confirmationIndex % 4294967296 ∧
      fromLE4 (c5m.Marshal.drop 152) = c5m.milestoneIndex % 4294967296) := by
  refine ⟨⟨by decide, by decide, by decide, by decide⟩, ?_⟩
  exact c5_marshal_layout c5m (by decide) (by decide) (by decide) (by decide)

/-- C10: the legacy metadata accessor backfills payload-derived fields
exactly when the stored trunk hash is empty; the stored branch hash is never
examined (the local branch variable is assigned the trunk hash), and the
backfill panics when the payload is missing. -/
theorem c10_legacy_backfill (db : DbModel) (m1 m2 m3 : Legacy.TransactionMetadata) (tx : Tx)
    (h1 : m1.trunkHash.length ≠ 0)
    (h2 : m2.trunkHash.length = 0)
    (h3 : db.txGet m2.txHash = .notFound)
    (h4 : m3.trunkHash.length = 0)
    (h5 : db.txGet m3.txHash = .found tx) :
    Legacy.addAdditionalTxInfoToMetadata db m1 = .ok m1 ∧
    Legacy.addAdditionalTxInfoToMetadata db m2 =
      .panicked "transaction not found for metadata" ∧
    Legacy.addAdditionalTxInfoToMetadata db m3 =
      .ok (m3.SetAdditionalTxInfo tx.trunkHash tx.branchHash tx.bundleHash
        tx.isHead tx.isTail tx.isValue) := by
  unfold Legacy.addAdditionalTxInfoToMetadata TransactionOrNil
  refine ⟨?_, ?_, ?_⟩
  · simp [h1]
  · simp [h2, h3]
  · simp [h4, h5]

/-- C10 witness: at the concrete database, metadata with a stored trunk hash
but empty branch hash is returned unchanged, an empty trunk hash with a
missing payload panics, and an empty trunk hash with an existing payload is
backfilled. -/
theorem c10_witness :
    (m10a.trunkHash.length ≠ 0 ∧ m10b.trunkHash.length = 0 ∧
      db10.txGet m10b.txHash = .notFound ∧ m10c.trunkHash.length = 0 ∧
      db10.txGet m10c.txHash = .found tx10) ∧
    (Legacy.addAdditionalTxInfoToMetadata db10 m10a = .ok m10a ∧
      Legacy.addAdditionalTxInfoToMetadata db10 m10b =
        .panicked "transaction not found for metadata" ∧
      Legacy.addAdditionalTxInfoToMetadata db10 m10c =
        .ok (m10c.SetAdditionalTxInfo tx10.trunkHash tx10.branchHash tx10.bundleHash
          tx10.isHead tx10.isTail tx10.isValue)) := by
  refine ⟨⟨by decide, by decide, by decide, by decide, by decide⟩, ?_⟩
  exact c10_legacy_backfill db10 m10a m10b m10c tx10 (by decide) (by decide)
    (by decide) (by decide) (by decide)

/-- C6: for the point lookups `TxMetadataOrNil` and `MilestoneOrNil`, a
key-not-found `Get` failure is a normal `nil` return, while any other `Get`
failure panics instead of returning `nil`. -/
theorem c6_point_lookup_errors (db : DbModel) (h1 h2 : List Nat) (i1 i2 : Nat)
    (e1 e2 : String)
    (ha : db.metadataGet h1 = .notFound)
    (hb : db.metadataGet h2 = .ioErr e1)
    (hc : db.milestoneGet (databaseKeyForMilestoneIndex i1) = .notFound)
    (hd : db.milestoneGet (databaseKeyForMilestoneIndex i2) = .ioErr e2) :
    TxMetadataOrNil db h1 = .ok none ∧
    TxMetadataOrNil db h2 = .panicked e1 ∧
    MilestoneOrNil db i1 = .ok none ∧
    MilestoneOrNil db i2 = .panicked e2 := by
  unfold TxMetadataOrNil MilestoneOrNil
  refine ⟨?_, ?_, ?_, ?_⟩
  · simp [ha]
  · simp [hb]
  · simp [hc]
  · simp [hd]

/-- C6 witness: at the concrete database, an absent metadata key and an
absent milestone index return `nil`, and an engine failure on either
realm panics. -/
theorem c6_witness :
    (db6.metadataGet [0] = .notFound ∧
      db6.metadataGet [1] = .ioErr "engine failure" ∧
      db6.milestoneGet (databaseKeyForMilestoneIndex 5) = .notFound ∧
      db6.milestoneGet (databaseKeyForMilestoneIndex 2) = .ioErr "engine failure") ∧
    (TxMetadataOrNil db6 [0] = .ok none ∧
      TxMetadataOrNil db6 [1] = .panicked "engine failure" ∧
      MilestoneOrNil db6 5 = .ok none ∧
      MilestoneOrNil db6 2 = .panicked "engine failure") := by
  refine ⟨⟨by decide, by decide, by decide, by decide⟩, ?_⟩
  exact c6_point_lookup_errors db6 [0] [1] 5 2 "engine failure" "engine failure"
    (by decide) (by decide) (by decide) (by decide)

/-- C8: `MilestoneTimestamp(i)` returns an error iff the milestone entry for
`i` is absent or the transaction payload for the milestone's tail hash is
absent; otherwise it returns exactly the tail transaction's timestamp
(assuming no engine failure and a well-formed milestone value). -/
theorem c8_milestone_timestamp (db : DbModel) (i : Nat)
    (hms : (db.milestoneGet (databaseKeyForMilestoneIndex i)).isEngineErr = false)
    (hval : ∀ data, db.milestoneGet (databaseKeyForMilestoneIndex i) = .found data →
      HashSize ≤ data.length)
    (htx : ∀ data, db.milestoneGet (databaseKeyForMilestoneIndex i) = .found data →
      (db.txGet (data.take HashSize)).isEngineErr = false) :
    ((∃ e, MilestoneTimestamp db i = .ok (.error e)) ↔
      (db.milestoneGet (databaseKeyForMilestoneIndex i) = .notFound ∨
        ∃ data, db.milestoneGet (databaseKeyForMilestoneIndex i) = .found data ∧
          db.txGet (data.take HashSize) = .notFound)) ∧
    (∀ data tx, db.milestoneGet (databaseKeyForMilestoneIndex i) = .found data →
      db.txGet (data.take HashSize) = .found tx →
      MilestoneTimestamp db i = .ok (.ok tx.timestamp)) := by
  unfold MilestoneTimestamp MilestoneOrNil milestoneFactory TransactionOrNil
  cases hg : db.milestoneGet (databaseKeyForMilestoneIndex i) with
  | notFound =>
    refine ⟨?_, ?_⟩
    · simp [hg]
    · intro data tx hfound
      exact GetResult.noConfusion hfound
  | ioErr e =>
    rw [hg] at hms
    simp [GetResult.isEngineErr] at hms
  | found data =>
    have hlen := hval data hg
    have hlen' : ¬ data.length < HashSize := by omega
    have htx' := htx data hg
    refine ⟨?_, ?_⟩
    · cases hgt : db.txGet (data.take HashSize) with
      | found tx => simp [hg, hlen', hgt]
      | notFound => simp [hg, hlen', hgt]
      | ioErr e =>
        rw [hgt] at htx'
        simp [GetResult.isEngineErr] at htx'
    · intro data' tx hfound hgt
      cases hfound
      simp [hg, hlen', hgt]

/-- C8 witness: at the concrete database, milestone 4 resolves and the
timestamp is the tail transaction's; absent milestones yield an error. -/
theorem c8_witness :
    ((db8.milestoneGet (databaseKeyForMilestoneIndex 4)).isEngineErr = false ∧
      (∀ data, db8.milestoneGet (databaseKeyForMilestoneIndex 4) = .found data →
        HashSize ≤ data.length) ∧
      (∀ data, db8.milestoneGet (databaseKeyForMilestoneIndex 4) = .found data →
        (db8.txGet (data.take HashSize)).isEngineErr = false)) ∧
    (((∃ e, MilestoneTimestamp db8 4 = .ok (.error e)) ↔
      (db8.milestoneGet (databaseKeyForMilestoneIndex 4) = .notFound ∨
        ∃ data, db8.milestoneGet (databaseKeyForMilestoneIndex 4) = .found data ∧
          db8.txGet (data.take HashSize) = .notFound)) ∧
    (∀ data tx, db8.milestoneGet (databaseKeyForMilestoneIndex 4) = .found data →
      db8.txGet (data.take HashSize) = .found tx →
      MilestoneTimestamp db8 4 = .ok (.ok tx.timestamp))) := by
  have hv : ∀ data, db8.milestoneGet (databaseKeyForMilestoneIndex 4) = .found data →
      HashSize ≤ data.length := by
    intro data hd
    rw [show db8.milestoneGet (databaseKeyForMilestoneIndex 4) = .found cTail from rfl] at hd
    cases hd
    decide
  have he : ∀ data, db8.milestoneGet (databaseKeyForMilestoneIndex 4) = .found data →
      (db8.txGet (data.take HashSize)).isEngineErr = false := by
    intro data hd
    rw [show db8.milestoneGet (databaseKeyForMilestoneIndex 4) = .found cTail from rfl] at hd
    cases hd
    decide
  exact ⟨⟨by decide, hv, he⟩, c8_milestone_timestamp db8 4 (by decide) hv he⟩

/-- C4 (amended): `BundleTransactionHashes(b, maxFind = k)` returns at most
`k` hashes, the result is exactly the member hashes of the first `k` keys of
the store's prefix-scan iteration order under `b`, and the scan visits at
most the first `k + 1` matching keys — it inspects the `(k+1)`-th match only
to detect that the cap is reached, and never goes further. -/
theorem c4_amended (keys : List (List Nat)) (bundleHash : List Nat) (k : Nat) :
    (BundleTransactionHashes keys bundleHash (some k)).length ≤ k ∧
    BundleTransactionHashes keys bundleHash (some k) =
      ((keys.filter (fun key => bundleHash.isPrefixOf key)).take k).map
        (fun key => (key.drop 50).take 49) ∧
    bundleTxHashesVisited keys bundleHash (some k) =
      (keys.filter (fun key => bundleHash.isPrefixOf key)).take (k + 1) := by
  unfold BundleTransactionHashes bundleTxHashesVisited IterateKeys
    databaseKeyPrefixForBundleHash
  rw [bundleTxScan_go k _ 0 [] (by omega)]
  refine ⟨?_, ?_, ?_⟩
  · simp
  · simp
  · simp

/-- C4 counterexample: with cap `k = 1` and three matching keys, the scan
visits the second matching key — a key past the first match — refuting
"never scans past the k-th match". -/
theorem c4_counterexample :
    bundleTxHashesVisited cKeys4 cB4 (some 1) = [cK1, cK2] ∧
    (cKeys4.filter (fun key => cB4.isPrefixOf key)).take 1 = [cK1] ∧
    cK2 ≠ cK1 := by
  refine ⟨by decide, by decide, by decide⟩

theorem getD_mem_of_lt {α : Type} (l : List α) (j : Nat) (d : α) (h : j < l.length) :
    l.getD j d ∈ l := by
  rw [List.getD_eq_getElem?_getD, List.getElem?_eq_getElem h]
  exact List.getElem_mem h

theorem setMigrationBits_bits (b : Nat) (h t v ms : Bool) :
    (setMigrationBits b h t v ms).testBit 3 = h ∧
    (setMigrationBits b h t v ms).testBit 4 = t ∧
    (setMigrationBits b h t v ms).testBit 5 = v ∧
    (setMigrationBits b h t v ms).testBit 6 = ms ∧
    (setMigrationBits b h t v ms).testBit 1 = b.testBit 1 := by
  refine ⟨?_, ?_, ?_, ?_, ?_⟩ <;>
    rw [testBit_setMigrationBits _ _ _ _ _ _ (by omega)] <;> simp

theorem testBit_one_mod256 (x : Nat) : (x % 256).testBit 1 = x.testBit 1 := by
  rw [show (256 : Nat) = 2 ^ 8 by norm_num, Nat.testBit_mod_two_pow]
  simp

/-- C3: every record written back by the migration carries the payload's
head/tail/value bits, the IsMilestone bit iff the resolved index is nonzero,
the legacy Confirmed bit and confirmation index, the payload's
trunk/branch/bundle hashes, and the resolved milestone index — so the
stored milestone index is nonzero exactly when the IsMilestone bit is set. -/
theorem c3_migration_fields (txs : List (List Nat × Tx)) (bundles : List (List Nat × Bundle))
    (keys : List (List Nat)) (metas out : List (List Nat × List Nat)) (j : Nat)
    (htxs : TxStoreWF txs)
    (hmeta : ∀ p ∈ metas, ValidBytes p.2)
    (h : migrateAll txs bundles keys [] metas = .ok out)
    (hj : j < metas.length) :
    out.length = metas.length ∧
    (out.getD j ([], [])).1 = (metas.getD j ([], [])).1 ∧
    ∃ tx idx,
      findEntry ((metas.getD j ([], [])).1.take HashSize) txs = some tx ∧
      resolveBundleMilestoneIndex txs bundles keys tx.bundleHash = .ok idx ∧
      hasBit ((out.getD j ([], [])).2.getD 0 0) TransactionMetadataIsHead = tx.isHead ∧
      hasBit ((out.getD j ([], [])).2.getD 0 0) TransactionMetadataIsTail = tx.isTail ∧
      hasBit ((out.getD j ([], [])).2.getD 0 0) TransactionMetadataIsValue = tx.isValue ∧
      (hasBit ((out.getD j ([], [])).2.getD 0 0) TransactionMetadataIsMilestone = true ↔
        idx ≠ 0) ∧
      hasBit ((out.getD j ([], [])).2.getD 0 0) TransactionMetadataConfirmed =
        hasBit ((metas.getD j ([], [])).2.getD 0 0) TransactionMetadataConfirmed ∧
      fromLE4 ((out.getD j ([], [])).2.drop 1) =
        fromLE4 ((metas.getD j ([], [])).2.drop 5) ∧
      ((out.getD j ([], [])).2.drop 5).take 49 = tx.trunkHash ∧
      ((out.getD j ([], [])).2.drop 54).take 49 = tx.branchHash ∧
      ((out.getD j ([], [])).2.drop 103).take 49 = tx.bundleHash ∧
      fromLE4 ((out.getD j ([], [])).2.drop 152) = idx ∧
      (fromLE4 ((out.getD j ([], [])).2.drop 152) ≠ 0 ↔
        hasBit ((out.getD j ([], [])).2.getD 0 0) TransactionMetadataIsMilestone = true) := by
  rw [migrateAll_eq txs bundles keys metas [] (cacheCorrect_nil _ _ _)] at h
  obtain ⟨hlen, hidx⟩ := migrateSpec_index txs bundles keys metas out h
  obtain ⟨hkey1, hrec⟩ := hidx j hj
  obtain ⟨hlen9, tx, idx, hfe, hres, hr⟩ := migratedRecord_ok _ _ _ _ _ _ hrec
  obtain ⟨ht0, hb0, hu0, hvt0, hvb0, hvu0⟩ := htxs _ (findEntry_mem _ _ _ hfe)
  have ht : tx.trunkHash.length = 49 := ht0
  have hbr : tx.branchHash.length = 49 := hb0
  have hbu : tx.bundleHash.length = 49 := hu0
  have hvdata : ValidBytes (metas.getD j ([], [])).2 :=
    hmeta _ (getD_mem_of_lt _ _ _ hj)
  refine ⟨hlen, hkey1, tx, idx, hfe, hres, ?_⟩
  have pmeta : (composeMigratedMetadata ((metas.getD j ([], [])).1.take HashSize)
      (metas.getD j ([], [])).2 tx idx).metadata =
      setMigrationBits ((metas.getD j ([], [])).2.getD 0 0 % 256) tx.isHead tx.isTail
        tx.isValue (decide (idx ≠ 0)) := rfl
  have pconf : (composeMigratedMetadata ((metas.getD j ([], [])).1.take HashSize)
      (metas.getD j ([], [])).2 tx idx).confirmationIndex =
      fromLE4 ((metas.getD j ([], [])).2.drop 5) := rfl
  have pms : (composeMigratedMetadata ((metas.getD j ([], [])).1.take HashSize)
      (metas.getD j ([], [])).2 tx idx).milestoneIndex = idx := rfl
  have hm1 : (composeMigratedMetadata ((metas.getD j ([], [])).1.take HashSize)
      (metas.getD j ([], [])).2 tx idx).trunkHash.length = HashSize := ht
  have hm2 : (composeMigratedMetadata ((metas.getD j ([], [])).1.take HashSize)
      (metas.getD j ([], [])).2 tx idx).branchHash.length = HashSize := hbr
  have hm3 : (composeMigratedMetadata ((metas.getD j ([], [])).1.take HashSize)
      (metas.getD j ([], [])).2 tx idx).bundleHash.length = HashSize := hbu
  have hflds := marshal_fields _ hm1 hm2 hm3
  rw [pmeta, pconf, pms] at hflds
  have hbase : (metas.getD j ([], [])).2.getD 0 0 % 256 < 256 := Nat.mod_lt _ (by omega)
  have hBlt := setMigrationBits_lt ((metas.getD j ([], [])).2.getD 0 0 % 256)
    tx.isHead tx.isTail tx.isValue (decide (idx ≠ 0)) hbase
  have hbyte : (out.getD j ([], [])).2.getD 0 0 =
      setMigrationBits ((metas.getD j ([], [])).2.getD 0 0 % 256) tx.isHead tx.isTail
        tx.isValue (decide (idx ≠ 0)) := by
    rw [hr, hflds.2.1, Nat.mod_eq_of_lt hBlt]
  have hbits := setMigrationBits_bits ((metas.getD j ([], [])).2.getD 0 0 % 256)
    tx.isHead tx.isTail tx.isValue (decide (idx ≠ 0))
  have hconfBound : fromLE4 ((metas.getD j ([], [])).2.drop 5) < 4294967296 :=
    fromLE4_lt _ (fun i _ => getD_lt_of_validBytes _ (validBytes_drop _ hvdata 5) i)
  have hidxBound : idx < 4294967296 := resolveBundleMilestoneIndex_lt _ _ _ _ _ hres
  have hmsval : fromLE4 ((out.getD j ([], [])).2.drop 152) = idx := by
    rw [hr, hflds.2.2.2.2.2.2.2, Nat.mod_eq_of_lt hidxBound]
  have hmsbit : hasBit ((out.getD j ([], [])).2.getD 0 0) TransactionMetadataIsMilestone =
      decide (idx ≠ 0) := by
    unfold hasBit TransactionMetadataIsMilestone
    rw [hbyte]
    exact hbits.2.2.2.1
  refine ⟨?_, ?_, ?_, ?_, ?_, ?_, ?_, ?_, ?_, ?_, ?_⟩
  · unfold hasBit TransactionMetadataIsHead
    rw [hbyte]
    exact hbits.1
  · unfold hasBit TransactionMetadataIsTail
    rw [hbyte]
    exact hbits.2.1
  · unfold hasBit TransactionMetadataIsValue
    rw [hbyte]
    exact hbits.2.2.1
  · rw [hmsbit]
    simp
  · unfold hasBit TransactionMetadataConfirmed
    rw [hbyte]
    rw [hbits.2.2.2.2]
    exact testBit_one_mod256 _
  · rw [hr, hflds.2.2.1, Nat.mod_eq_of_lt hconfBound]
  · rw [hr]
    exact hflds.2.2.2.1
  · rw [hr]
    exact hflds.2.2.2.2.1
  · rw [hr]
    exact hflds.2.2.2.2.2.1
  · exact hmsval
  · rw [hmsval, hmsbit]
    simp

set_option maxRecDepth 4000 in
/-- C3 witness: the migrated record of the concrete dataset at index 0. -/
theorem c3_witness :
    (TxStoreWF cTxs ∧ (∀ p ∈ cMetas, ValidBytes p.2) ∧
      migrateAll cTxs cBundles cKeys [] cMetas = .ok cOut ∧ 0 < cMetas.length) ∧
    (cOut.length = cMetas.length ∧
      (cOut.getD 0 ([], [])).1 = (cMetas.getD 0 ([], [])).1 ∧
      ∃ tx idx,
        findEntry ((cMetas.getD 0 ([], [])).1.take HashSize) cTxs = some tx ∧
        resolveBundleMilestoneIndex cTxs cBundles cKeys tx.bundleHash = .ok idx ∧
        hasBit ((cOut.getD 0 ([], [])).2.getD 0 0) TransactionMetadataIsHead = tx.isHead ∧
        hasBit ((cOut.getD 0 ([], [])).2.getD 0 0) TransactionMetadataIsTail = tx.isTail ∧
        hasBit ((cOut.getD 0 ([], [])).2.getD 0 0) TransactionMetadataIsValue = tx.isValue ∧
        (hasBit ((cOut.getD 0 ([], [])).2.getD 0 0) TransactionMetadataIsMilestone = true ↔
          idx ≠ 0) ∧
        hasBit ((cOut.getD 0 ([], [])).2.getD 0 0) TransactionMetadataConfirmed =
          hasBit ((cMetas.getD 0 ([], [])).2.getD 0 0) TransactionMetadataConfirmed ∧
        fromLE4 ((cOut.getD 0 ([], [])).2.drop 1) =
          fromLE4 ((cMetas.getD 0 ([], [])).2.drop 5) ∧
        ((cOut.getD 0 ([], [])).2.drop 5).take 49 = tx.trunkHash ∧
        ((cOut.getD 0 ([], [])).2.drop 54).take 49 = tx.branchHash ∧
        ((cOut.getD 0 ([], [])).2.drop 103).take 49 = tx.bundleHash ∧
        fromLE4 ((cOut.getD 0 ([], [])).2.drop 152) = idx ∧
        (fromLE4 ((cOut.getD 0 ([], [])).2.drop 152) ≠ 0 ↔
          hasBit ((cOut.getD 0 ([], [])).2.getD 0 0) TransactionMetadataIsMilestone = true)) := by
  refine ⟨⟨by decide, by decide, rfl, by decide⟩, ?_⟩
  exact c3_migration_fields cTxs cBundles cKeys cMetas cOut 0 (by decide) (by decide)
    rfl (by decide)

theorem resolveScan_first (txs : List (List Nat × Tx)) (bundles : List (List Nat × Bundle))
    (kM : List Nat) (l2 : List (List Nat)) (bM : Bundle) (tailTx : Tx)
    (hM : findEntry (databaseKeyForBundle ((kM.drop 50).take 49)) bundles = some bM)
    (hMs : bM.IsMilestone = true)
    (htail : bM.tailTx.length ≠ 0)
    (htx : findEntry bM.tailTx txs = some tailTx) :
    ∀ l1 : List (List Nat),
      (∀ k ∈ l1, findEntry (databaseKeyForBundle ((k.drop 50).take 49)) bundles = none ∨
        ∃ b, findEntry (databaseKeyForBundle ((k.drop 50).take 49)) bundles = some b ∧
          b.IsMilestone = false) →
      resolveScan txs bundles (l1 ++ kM :: l2) = .ok (toUint32 tailTx.obsoleteTag) := by
  intro l1
  induction l1 with
  | nil =>
    intro _
    simp only [List.nil_append, resolveScan]
    simp [hM, hMs, getBundleMilestoneIndex, htail, htx]
  | cons k l1' ih =>
    intro hb
    have hk := hb k (List.mem_cons_self _ _)
    simp only [List.cons_append, resolveScan]
    rcases hk with hnone | ⟨b, hsome, hfalse⟩
    · simp only [hnone]
      exact ih (fun k' hk' => hb k' (List.mem_cons_of_mem _ hk'))
    · simp only [hsome, hfalse, Bool.false_eq_true, if_false]
      exact ih (fun k' hk' => hb k' (List.mem_cons_of_mem _ hk'))

/-- C1 counterexample: in the concrete dataset the milestone bundle's tail
transaction has obsolete tag 7 and timestamp 1000; the resolved milestone
index is 7 — decoded from the obsolete tag — and is not the value decoded
from the timestamp field. -/
theorem c1_counterexample :
    resolveBundleMilestoneIndex cTxs cBundles cKeys cB = .ok (toUint32 cTailTx.obsoleteTag) ∧
    toUint32 cTailTx.obsoleteTag = 7 ∧
    cTailTx.timestamp = 1000 ∧
    resolveBundleMilestoneIndex cTxs cBundles cKeys cB ≠ .ok cTailTx.timestamp := by
  refine ⟨by decide, by decide, by decide, by decide⟩

/-- C1 (amended): on a bundle-hash cache miss, when the first tail key in
the prefix-scan order whose bundle record exists and satisfies
`IsMilestone()` is reached, the resolved milestone index equals the integer
decoded from that bundle's tail transaction's obsolete-tag field (converted
to uint32), the scan stops there (keys after it do not affect the result),
and every migrated metadata record whose payload carries that bundle hash
stores exactly that index. -/
theorem c1_amended (txs : List (List Nat × Tx)) (bundles : List (List Nat × Bundle))
    (keys : List (List Nat)) (bh : List Nat) (l1 : List (List Nat)) (kM : List Nat)
    (l2 : List (List Nat)) (bM : Bundle) (tailTx : Tx)
    (metas out : List (List Nat × List Nat)) (j : Nat) (tx : Tx)
    (htxs : TxStoreWF txs)
    (hsplit : keys.filter (fun k =>
      (databaseKeyPrefixForBundleHash bh ++ [BundleTxIsTail]).isPrefixOf k) =
      l1 ++ kM :: l2)
    (hbefore : ∀ k ∈ l1,
      findEntry (databaseKeyForBundle ((k.drop 50).take 49)) bundles = none ∨
      ∃ b, findEntry (databaseKeyForBundle ((k.drop 50).take 49)) bundles = some b ∧
        b.IsMilestone = false)
    (hM : findEntry (databaseKeyForBundle ((kM.drop 50).take 49)) bundles = some bM)
    (hMs : bM.IsMilestone = true)
    (htail : bM.tailTx.length ≠ 0)
    (htx : findEntry bM.tailTx txs = some tailTx)
    (hmig : migrateAll txs bundles keys [] metas = .ok out)
    (hj : j < metas.length)
    (hkey : findEntry ((metas.getD j ([], [])).1.take HashSize) txs = some tx)
    (hbh : tx.bundleHash = bh) :
    resolveBundleMilestoneIndex txs bundles keys bh = .ok (toUint32 tailTx.obsoleteTag) ∧
    fromLE4 ((out.getD j ([], [])).2.drop 152) = toUint32 tailTx.obsoleteTag := by
  have hres : resolveBundleMilestoneIndex txs bundles keys bh =
      .ok (toUint32 tailTx.obsoleteTag) := by
    unfold resolveBundleMilestoneIndex
    rw [hsplit]
    exact resolveScan_first txs bundles kM l2 bM tailTx hM hMs htail htx l1 hbefore
  refine ⟨hres, ?_⟩
  rw [migrateAll_eq txs bundles keys metas [] (cacheCorrect_nil _ _ _)] at hmig
  obtain ⟨hlen, hidx⟩ := migrateSpec_index txs bundles keys metas out hmig
  obtain ⟨hkey1, hrec⟩ := hidx j hj
  obtain ⟨hlen9, tx', idx, hfe, hres', hr⟩ := migratedRecord_ok _ _ _ _ _ _ hrec
  rw [hkey] at hfe
  injection hfe with hfe
  subst hfe
  rw [hbh, hres] at hres'
  injection hres' with hres'
  subst hres'
  obtain ⟨ht0, hb0, hu0, hvt0, hvb0, hvu0⟩ := htxs _ (findEntry_mem _ _ _ hkey)
  have hm1 : (composeMigratedMetadata ((metas.getD j ([], [])).1.take HashSize)
      (metas.getD j ([], [])).2 tx (toUint32 tailTx.obsoleteTag)).trunkHash.length =
      HashSize := ht0
  have hm2 : (composeMigratedMetadata ((metas.getD j ([], [])).1.take HashSize)
      (metas.getD j ([], [])).2 tx (toUint32 tailTx.obsoleteTag)).branchHash.length =
      HashSize := hb0
  have hm3 : (composeMigratedMetadata ((metas.getD j ([], [])).1.take HashSize)
      (metas.getD j ([], [])).2 tx (toUint32 tailTx.obsoleteTag)).bundleHash.length =
      HashSize := hu0
  have hflds := marshal_fields _ hm1 hm2 hm3
  have pms : (composeMigratedMetadata ((metas.getD j ([], [])).1.take HashSize)
      (metas.getD j ([], [])).2 tx (toUint32 tailTx.obsoleteTag)).milestoneIndex =
      toUint32 tailTx.obsoleteTag := rfl
  rw [pms] at hflds
  rw [hr, hflds.2.2.2.2.2.2.2, Nat.mod_eq_of_lt (toUint32_lt _)]

set_option maxRecDepth 4000 in
/-- C1 witness: the concrete dataset's bundle resolves to index 7 (the
obsolete tag of its milestone tail) and the migrated record stores 7. -/
theorem c1_witness :
    (TxStoreWF cTxs ∧
      cKeys.filter (fun k =>
        (databaseKeyPrefixForBundleHash cB ++ [BundleTxIsTail]).isPrefixOf k) =
        [] ++ cKeyM :: [] ∧
      (∀ k ∈ ([] : List (List Nat)),
        findEntry (databaseKeyForBundle ((k.drop 50).take 49)) cBundles = none ∨
        ∃ b, findEntry (databaseKeyForBundle ((k.drop 50).take 49)) cBundles = some b ∧
          b.IsMilestone = false) ∧
      findEntry (databaseKeyForBundle ((cKeyM.drop 50).take 49)) cBundles = some cBundle ∧
      cBundle.IsMilestone = true ∧
      cBundle.tailTx.length ≠ 0 ∧
      findEntry cBundle.tailTx cTxs = some cTailTx ∧
      migrateAll cTxs cBundles cKeys [] cMetas = .ok cOut ∧
      0 < cMetas.length ∧
      findEntry ((cMetas.getD 0 ([], [])).1.take HashSize) cTxs = some cTx ∧
      cTx.bundleHash = cB) ∧
    (resolveBundleMilestoneIndex cTxs cBundles cKeys cB =
        .ok (toUint32 cTailTx.obsoleteTag) ∧
      fromLE4 ((cOut.getD 0 ([], [])).2.drop 152) = toUint32 cTailTx.obsoleteTag) := by
  refine ⟨⟨by decide, by decide, by simp, by decide, by decide, by decide, by decide,
    rfl, by decide, by decide, by decide⟩, ?_⟩
  exact c1_amended cTxs cBundles cKeys cB [] cKeyM [] cBundle cTailTx cMetas cOut 0 cTx
    (by decide) (by decide) (by simp) (by decide) (by decide) (by decide) (by decide)
    rfl (by decide) (by decide) (by decide)

set_option maxRecDepth 8000 in
/-- C2 counterexample: re-running the migration pass on the already-migrated
concrete store succeeds but produces different bytes (the confirmation-index
field is re-read at the legacy offset, where the new layout stores the first
trunk-hash bytes), so the records are not byte-identical. -/
theorem c2_counterexample :
    migrateAll cTxs cBundles cKeys [] cMetas = .ok cOut ∧
    migrateAll cTxs cBundles cKeys [] cOut = .ok cOut2 ∧
    cOut ≠ cOut2 :=
  ⟨rfl, rfl, by decide⟩

/-- C2 (amended): re-running the migration pass on an already-migrated store
(bypassing the version guard) succeeds and produces, at every key, a record
identical to the first-pass record except that bytes 1–4 (the
confirmation-index field) are replaced by bytes 5–8 of the first-pass record
— the first four bytes of the trunk hash, which sit at the legacy
confirmation-index offset; the records are byte-identical only when those
four bytes happen to encode the original confirmation index. -/
theorem c2_amended (txs : List (List Nat × Tx)) (bundles : List (List Nat × Bundle))
    (keys : List (List Nat)) (metas out : List (List Nat × List Nat))
    (htxs : TxStoreWF txs)
    (h : migrateAll txs bundles keys [] metas = .ok out) :
    migrateAll txs bundles keys [] out =
      .ok (out.map fun p => (p.1, p.2.take 1 ++ (p.2.drop 5).take 4 ++ p.2.drop 5)) := by
  rw [migrateAll_eq txs bundles keys metas [] (cacheCorrect_nil _ _ _)] at h
  rw [migrateAll_eq txs bundles keys out [] (cacheCorrect_nil _ _ _)]
  exact migrateSpec_again txs bundles keys htxs metas out h

set_option maxRecDepth 8000 in
/-- C2 witness: the second pass over the migrated concrete store rewrites
exactly the confirmation-index bytes. -/
theorem c2_witness :
    (TxStoreWF cTxs ∧ migrateAll cTxs cBundles cKeys [] cMetas = .ok cOut) ∧
    migrateAll cTxs cBundles cKeys [] cOut =
      .ok (cOut.map fun p => (p.1, p.2.take 1 ++ (p.2.drop 5).take 4 ++ p.2.drop 5)) :=
  ⟨⟨by decide, rfl⟩, c2_amended cTxs cBundles cKeys cMetas cOut (by decide) rfl⟩
